import Mathlib

/-!
Verification development for the `kocom_wallpad` RS-485 wallpad integration.

The definitions below are shallow embeddings of the Python sources under
`custom_components/kocom_wallpad/`:
  * `RingBuffer`, `KocomController._split_buf` / `feed` (controller.py),
  * the frame accessors and the per-device-type decode handlers (controller.py),
  * `EntityRegistry` / `KocomGateway.on_device_state` (gateway.py),
  * `KocomController.build_expectation` and `_generate_switch` (controller.py),
  * the command queue of `KocomGateway.async_send_action` (gateway.py),
  * the reconnect backoff of `AsyncConnection.reconnect` (transport.py).

Bytes are modelled as `Nat` (the Python code only ever stores values `0..255`
read from `bytes`); Python `float` values that occur (temperatures, timeouts,
backoff delays) are modelled as `ℚ`, which is exact for every float operation
the code performs on them (integer-valued floats, halves, doubling, `min`).
-/

set_option maxHeartbeats 1600000
set_option maxRecDepth 2000

namespace Kocom

/-- `PACKET_PREFIX` from const.py: frame start marker `AA 55`. -/
def PACKET_PREFIX : List Nat := [0xAA, 0x55]

/-- `PACKET_SUFFIX` from const.py: frame end marker `0D 0D`. -/
def PACKET_SUFFIX : List Nat := [0x0D, 0x0D]

/-- `PACKET_LEN` from const.py. -/
def PACKET_LEN : Nat := 21

/-- `RingBuffer` from controller.py: fixed-size circular byte buffer.
`buffer` is the backing `bytearray(capacity)`, `head` the write index,
`tail` the read index, `count` the number of stored bytes. -/
structure RingBuffer where
  buffer : List Nat
  capacity : Nat
  head : Nat
  tail : Nat
  count : Nat
deriving DecidableEq, Repr

/-- `RingBuffer.__init__`: zero-filled backing store, all indices zero. -/
def RingBuffer.init (capacity : Nat) : RingBuffer :=
  { buffer := List.replicate capacity 0, capacity := capacity,
    head := 0, tail := 0, count := 0 }

/-- One iteration of the loop in `RingBuffer.append`: write one byte at
`head`; on overflow (buffer full) advance `tail`, overwriting the oldest
byte. -/
def RingBuffer.append1 (rb : RingBuffer) (b : Nat) : RingBuffer :=
  let buffer := rb.buffer.set rb.head b
  let head := (rb.head + 1) % rb.capacity
  if rb.count < rb.capacity then
    { rb with buffer := buffer, head := head, count := rb.count + 1 }
  else
    { rb with
        buffer := buffer, head := head,
        tail := (rb.tail + 1) % rb.capacity }

/-- `RingBuffer.append`: append all bytes of `data` in order. -/
def RingBuffer.append (rb : RingBuffer) (data : List Nat) : RingBuffer :=
  data.foldl RingBuffer.append1 rb

/-- `RingBuffer.peek`: read up to `length` bytes from `tail` without
removing them; `length` is clamped to `count`. -/
def RingBuffer.peek (rb : RingBuffer) (length : Nat) : List Nat :=
  (List.range (min length rb.count)).map fun i =>
    rb.buffer.getD ((rb.tail + i) % rb.capacity) 0

/-- `RingBuffer.skip`: drop up to `length` bytes from the front;
`length` is clamped to `count`. -/
def RingBuffer.skip (rb : RingBuffer) (length : Nat) : RingBuffer :=
  { rb with
      tail := (rb.tail + min length rb.count) % rb.capacity,
      count := rb.count - min length rb.count }

/-- The inner comparison loop of `RingBuffer.find` at window offset `i`. -/
def RingBuffer.matchAt (rb : RingBuffer) (pattern : List Nat) (i : Nat) : Bool :=
  let idx := (rb.tail + i) % rb.capacity
  (List.range pattern.length).all fun j =>
    rb.buffer.getD ((idx + j) % rb.capacity) 0 == pattern.getD j 0

/-- `RingBuffer.find`: offset of the first occurrence of `pattern` among the
stored bytes (`none` replaces Python's `-1`). -/
def RingBuffer.find (rb : RingBuffer) (pattern : List Nat) : Option Nat :=
  if pattern.length = 0 then none
  else if rb.count < pattern.length then none
  else (List.range (rb.count - pattern.length + 1)).find? (rb.matchAt pattern)

/-- `RingBuffer.clear`: reset all indices (the backing store is kept). -/
def RingBuffer.clear (rb : RingBuffer) : RingBuffer :=
  { rb with head := 0, tail := 0, count := 0 }

/-- The stored bytes, oldest first: the abstraction of a ring buffer to the
byte queue it represents. -/
def RingBuffer.toList (rb : RingBuffer) : List Nat :=
  (List.range rb.count).map fun i =>
    rb.buffer.getD ((rb.tail + i) % rb.capacity) 0

/-- Structural well-formedness of a ring buffer: the backing store has the
declared capacity, the write index is `tail + count` (mod capacity), and the
indices are in range.  `RingBuffer.__init__` establishes it and every
operation preserves it. -/
def RingBuffer.WF (rb : RingBuffer) : Prop :=
  rb.buffer.length = rb.capacity ∧
  rb.head = (rb.tail + rb.count) % rb.capacity ∧
  rb.count ≤ rb.capacity ∧
  rb.tail < rb.capacity ∧
  0 < rb.capacity

instance (rb : RingBuffer) : Decidable rb.WF := by
  unfold RingBuffer.WF
  infer_instance

theorem RingBuffer.toList_length (rb : RingBuffer) : rb.toList.length = rb.count := by
  simp [RingBuffer.toList]

theorem RingBuffer.init_WF (c : Nat) (hc : 0 < c) : (RingBuffer.init c).WF := by
  refine ⟨?_, ?_, ?_, ?_, ?_⟩ <;> simp [RingBuffer.init, hc]

theorem RingBuffer.toList_init (c : Nat) : (RingBuffer.init c).toList = [] := by
  simp [RingBuffer.toList, RingBuffer.init]

theorem RingBuffer.append1_capacity (rb : RingBuffer) (b : Nat) :
    (rb.append1 b).capacity = rb.capacity := by
  unfold RingBuffer.append1
  split <;> rfl

theorem RingBuffer.toList_append1 (rb : RingBuffer) (b : Nat) (h : rb.WF)
    (hc : rb.count < rb.capacity) :
    (rb.append1 b).toList = rb.toList ++ [b] ∧ (rb.append1 b).WF := by
  obtain ⟨hlen, hhead, hcnt, htail, hpos⟩ := h
  have hhb : rb.head < rb.buffer.length := by
    rw [hlen, hhead]; exact Nat.mod_lt _ hpos
  have hne : ∀ i, i < rb.count → (rb.tail + i) % rb.capacity ≠ rb.head := by
    intro i hi heq
    rw [hhead] at heq
    have h2 : i ≡ rb.count [MOD rb.capacity] := Nat.ModEq.add_left_cancel' rb.tail heq
    have h3 : i % rb.capacity = rb.count % rb.capacity := h2
    rw [Nat.mod_eq_of_lt (lt_trans hi hc), Nat.mod_eq_of_lt hc] at h3
    omega
  constructor
  · simp only [RingBuffer.append1, if_pos hc, RingBuffer.toList]
    rw [List.range_succ, List.map_append]
    congr 1
    · apply List.map_congr_left
      intro i hi
      rw [List.mem_range] at hi
      simp only [List.getD_eq_getElem?_getD]
      rw [List.getElem?_set_ne (Ne.symm (hne i hi))]
    · simp only [List.map_cons, List.map_nil]
      congr 1
      rw [← hhead]
      simp only [List.getD_eq_getElem?_getD]
      rw [List.getElem?_set_eq_of_lt b hhb]
      rfl
  · refine ⟨?_, ?_, ?_, ?_, ?_⟩ <;>
      simp only [RingBuffer.append1, if_pos hc]
    · simpa using hlen
    · show (rb.head + 1) % rb.capacity = (rb.tail + (rb.count + 1)) % rb.capacity
      rw [hhead, Nat.mod_add_mod, ← Nat.add_assoc]
    · exact hc
    · exact htail
    · exact hpos

theorem RingBuffer.toList_append (rb : RingBuffer) (data : List Nat) (h : rb.WF)
    (hlen : rb.count + data.length ≤ rb.capacity) :
    (rb.append data).toList = rb.toList ++ data ∧ (rb.append data).WF ∧
    (rb.append data).capacity = rb.capacity := by
  induction data generalizing rb with
  | nil => exact ⟨by simp [RingBuffer.append], h, rfl⟩
  | cons b rest ih =>
    have hc : rb.count < rb.capacity := by
      simp only [List.length_cons] at hlen; omega
    obtain ⟨h1, h2⟩ := RingBuffer.toList_append1 rb b h hc
    have hcap1 : (rb.append1 b).capacity = rb.capacity :=
      RingBuffer.append1_capacity rb b
    have hcnt1 : (rb.append1 b).count = rb.count + 1 := by
      simp [RingBuffer.append1, if_pos hc]
    have hstep : rb.append (b :: rest) = (rb.append1 b).append rest := rfl
    obtain ⟨e1, e2, e3⟩ := ih (rb.append1 b) h2
      (by rw [hcnt1, hcap1]; simp only [List.length_cons] at hlen; omega)
    refine ⟨?_, by rw [hstep]; exact e2, by rw [hstep, e3, hcap1]⟩
    rw [hstep, e1, h1, List.append_assoc]
    rfl

theorem RingBuffer.toList_skip (rb : RingBuffer) (n : Nat) (h : rb.WF) :
    (rb.skip n).toList = rb.toList.drop n ∧ (rb.skip n).WF ∧
    (rb.skip n).capacity = rb.capacity := by
  obtain ⟨hlen, hhead, hcnt, htail, hpos⟩ := h
  refine ⟨?_, ⟨hlen, ?_, ?_, ?_, hpos⟩, rfl⟩
  · by_cases hn : n ≤ rb.count
    · have hmin : min n rb.count = n := Nat.min_eq_left hn
      simp only [RingBuffer.skip, RingBuffer.toList, hmin]
      have hsplit : rb.count = n + (rb.count - n) := by omega
      conv_rhs => rw [hsplit, List.range_add, List.map_append]
      rw [show List.drop n
            (List.map (fun i => rb.buffer.getD ((rb.tail + i) % rb.capacity) 0)
              (List.range n) ++
             List.map (fun i => rb.buffer.getD ((rb.tail + i) % rb.capacity) 0)
              (List.map (fun x => n + x) (List.range (rb.count - n)))) =
          List.map (fun i => rb.buffer.getD ((rb.tail + i) % rb.capacity) 0)
            (List.map (fun x => n + x) (List.range (rb.count - n))) from by
        rw [List.drop_append_of_le_length (by simp)]
        simp]
      rw [List.map_map]
      apply List.map_congr_left
      intro i hi
      simp only [Function.comp_apply]
      rw [Nat.mod_add_mod, Nat.add_assoc]
    · have hmin : min n rb.count = rb.count := Nat.min_eq_right (le_of_not_le hn)
      simp only [RingBuffer.skip, RingBuffer.toList, hmin]
      rw [List.drop_eq_nil_of_le (by rw [List.length_map, List.length_range]; omega)]
      simp
  · show rb.head = ((rb.tail + min n rb.count) % rb.capacity +
      (rb.count - min n rb.count)) % rb.capacity
    rw [Nat.mod_add_mod, Nat.add_assoc,
      Nat.add_sub_cancel' (Nat.min_le_right n rb.count), hhead]
  · show rb.count - min n rb.count ≤ rb.capacity
    omega
  · show (rb.tail + min n rb.count) % rb.capacity < rb.capacity
    exact Nat.mod_lt _ hpos

theorem RingBuffer.toList_clear (rb : RingBuffer) (h : rb.WF) :
    rb.clear.toList = [] ∧ rb.clear.WF ∧ rb.clear.capacity = rb.capacity := by
  obtain ⟨hlen, hhead, hcnt, htail, hpos⟩ := h
  exact ⟨by simp [RingBuffer.toList, RingBuffer.clear],
    ⟨hlen, by simp [RingBuffer.clear], by simp [RingBuffer.clear],
      by simpa [RingBuffer.clear] using hpos, hpos⟩, rfl⟩

theorem RingBuffer.peek_eq_take (rb : RingBuffer) (n : Nat) :
    rb.peek n = rb.toList.take n := by
  simp [RingBuffer.peek, RingBuffer.toList, ← List.map_take, List.take_range]

/-- `RingBuffer.find` transported to the plain byte queue: offset of the
first window of `l` equal to `pattern`. -/
def listFind (l pattern : List Nat) : Option Nat :=
  if pattern.length = 0 then none
  else if l.length < pattern.length then none
  else (List.range (l.length - pattern.length + 1)).find? fun i =>
    decide ((l.drop i).take pattern.length = pattern)

theorem find?_congr {α : Type} (l : List α) (f g : α → Bool)
    (h : ∀ x ∈ l, f x = g x) : l.find? f = l.find? g := by
  induction l with
  | nil => rfl
  | cons a t ih =>
    have ha := h a (by simp)
    cases hg : g a with
    | true =>
      rw [List.find?_cons_of_pos _ (by rw [ha, hg]), List.find?_cons_of_pos _ hg]
    | false =>
      rw [List.find?_cons_of_neg _ (by simp [ha, hg]),
        List.find?_cons_of_neg _ (by simp [hg])]
      exact ih fun x hx => h x (by simp [hx])

theorem map_range_eq_iff (n : Nat) (f g : Nat → Nat) :
    (List.range n).map f = (List.range n).map g ↔ ∀ j, j < n → f j = g j := by
  constructor
  · intro h j hj
    have h1 : ((List.range n).map f)[j]? = ((List.range n).map g)[j]? := by rw [h]
    simpa [List.getElem?_map, List.getElem?_range, hj] using h1
  · intro h
    apply List.map_congr_left
    intro i hi
    exact h i (List.mem_range.mp hi)

theorem list_eq_range_map_getD (l : List Nat) :
    l = (List.range l.length).map fun j => l.getD j 0 := by
  apply List.ext_getElem
  · simp
  · intro i h1 h2
    simp [List.getD_eq_getElem?_getD, List.getElem?_eq_getElem, h1]

theorem map_range_eq_list_iff (n : Nat) (f : Nat → Nat) (p : List Nat)
    (hp : p.length = n) :
    (List.range n).map f = p ↔ ∀ j, j < n → f j = p.getD j 0 := by
  constructor
  · intro h j hj
    have h1 : ((List.range n).map f)[j]? = p[j]? := by rw [h]
    rw [List.getElem?_map, List.getElem?_range hj] at h1
    simp only [List.getD_eq_getElem?_getD, ← h1]
    rfl
  · intro h
    apply List.ext_getElem
    · simp [hp]
    · intro j h1 h2
      have hj : j < n := by simpa using h1
      have hv := h j hj
      simp only [List.getD_eq_getElem?_getD, List.getElem?_eq_getElem h2] at hv
      simpa [List.getElem_map, List.getElem_range] using hv

theorem RingBuffer.matchAt_eq (rb : RingBuffer) (p : List Nat) (i : Nat)
    (hi : i + p.length ≤ rb.count) :
    rb.matchAt p i = decide ((rb.toList.drop i).take p.length = p) := by
  have hwin : (rb.toList.drop i).take p.length =
      (List.range p.length).map fun j =>
        rb.buffer.getD ((rb.tail + (i + j)) % rb.capacity) 0 := by
    simp only [RingBuffer.toList]
    have hsplit : rb.count = i + (rb.count - i) := by omega
    conv_lhs => rw [hsplit, List.range_add, List.map_append]
    rw [List.drop_append_of_le_length (by simp), List.drop_eq_nil_of_le (by simp),
      List.nil_append, List.map_map, ← List.map_take, List.take_range,
      Nat.min_eq_left (by omega)]
    rfl
  have hiff : rb.matchAt p i = true ↔
      (rb.toList.drop i).take p.length = p := by
    rw [hwin, map_range_eq_list_iff p.length _ p rfl]
    simp only [RingBuffer.matchAt, List.all_eq_true, List.mem_range, beq_iff_eq]
    constructor
    · intro h j hj
      have := h j hj
      rwa [Nat.mod_add_mod, Nat.add_assoc] at this
    · intro h j hj
      rw [Nat.mod_add_mod, Nat.add_assoc]
      exact h j hj
  by_cases hw : (rb.toList.drop i).take p.length = p
  · simp [hw, hiff.mpr hw]
  · cases hb : rb.matchAt p i
    · simp [hw]
    · exact absurd (hiff.mp hb) hw

theorem RingBuffer.find_eq_listFind (rb : RingBuffer) (p : List Nat) :
    rb.find p = listFind rb.toList p := by
  unfold RingBuffer.find listFind
  rw [RingBuffer.toList_length]
  by_cases hp : p.length = 0
  · simp [hp]
  · rw [if_neg hp, if_neg hp]
    by_cases hcnt : rb.count < p.length
    · rw [if_pos hcnt, if_pos hcnt]
    · rw [if_neg hcnt, if_neg hcnt]
      apply find?_congr
      intro i hi
      rw [List.mem_range] at hi
      exact RingBuffer.matchAt_eq rb p i (by omega)

/-- The `while` loop of `KocomController._split_buf` (controller.py):
locate the prefix, discard preceding garbage (or everything, when no prefix
is present), wait when fewer than 21 bytes remain, check the suffix of the
21-byte candidate (dropping one byte and rescanning on mismatch), and emit
the candidate otherwise.  The loop consumes at least one stored byte per
continuing iteration, so `count` bounds the number of iterations; it is
passed as explicit fuel. -/
def splitBufLoop : Nat → RingBuffer → List (List Nat) × RingBuffer
  | 0, buf => ([], buf)
  | fuel+1, buf =>
    if buf.count = 0 then ([], buf)
    else
      match buf.find PACKET_PREFIX with
      | none => ([], buf.clear)
      | some start =>
        let buf1 := if 0 < start then buf.skip start else buf
        if buf1.count < PACKET_LEN then ([], buf1)
        else
          let candidate := buf1.peek PACKET_LEN
          if PACKET_SUFFIX.isSuffixOf candidate then
            let r := splitBufLoop fuel (buf1.skip PACKET_LEN)
            (candidate :: r.1, r.2)
          else
            splitBufLoop fuel (buf1.skip 1)

/-- `KocomController._split_buf`. -/
def splitBuf (rb : RingBuffer) : List (List Nat) × RingBuffer :=
  splitBufLoop rb.count rb

/-- `KocomController.feed` restricted to its framing effect: append the
chunk and extract the complete frames (`_dispatch_packet` is modelled
separately). -/
def feed (rb : RingBuffer) (chunk : List Nat) : List (List Nat) × RingBuffer :=
  if chunk.isEmpty then ([], rb)
  else splitBuf (rb.append chunk)

/-- Successive `feed` calls: the concatenated extracted frames and the final
buffer. -/
def feedMany (rb : RingBuffer) : List (List Nat) → List (List Nat) × RingBuffer
  | [] => ([], rb)
  | c :: cs =>
    let r := feed rb c
    let r2 := feedMany r.2 cs
    (r.1 ++ r2.1, r2.2)

/-- `splitBufLoop` transported to the plain byte queue. -/
def splitListLoop : Nat → List Nat → List (List Nat) × List Nat
  | 0, l => ([], l)
  | fuel+1, l =>
    if l.length = 0 then ([], l)
    else
      match listFind l PACKET_PREFIX with
      | none => ([], [])
      | some start =>
        let l1 := if 0 < start then l.drop start else l
        if l1.length < PACKET_LEN then ([], l1)
        else
          let candidate := l1.take PACKET_LEN
          if PACKET_SUFFIX.isSuffixOf candidate then
            let r := splitListLoop fuel (l1.drop PACKET_LEN)
            (candidate :: r.1, r.2)
          else
            splitListLoop fuel (l1.drop 1)

theorem splitBufLoop_eq (fuel : Nat) : ∀ rb : RingBuffer, rb.WF →
    (splitBufLoop fuel rb).1 = (splitListLoop fuel rb.toList).1 ∧
    (splitBufLoop fuel rb).2.toList = (splitListLoop fuel rb.toList).2 ∧
    (splitBufLoop fuel rb).2.WF ∧
    (splitBufLoop fuel rb).2.capacity = rb.capacity := by
  induction fuel with
  | zero => intro rb h; exact ⟨rfl, rfl, h, rfl⟩
  | succ fuel ih =>
    intro rb h
    rw [splitBufLoop, splitListLoop, RingBuffer.toList_length]
    by_cases h0 : rb.count = 0
    · simp only [h0, if_pos rfl]
      exact ⟨rfl, rfl, h, rfl⟩
    · rw [if_neg h0, if_neg h0, RingBuffer.find_eq_listFind]
      cases hf : listFind rb.toList PACKET_PREFIX with
      | none =>
        obtain ⟨c1, c2, c3⟩ := RingBuffer.toList_clear rb h
        exact ⟨rfl, c1, c2, c3⟩
      | some start =>
        dsimp only
        obtain ⟨s1, s2, s3⟩ := RingBuffer.toList_skip rb start h
        have hb1 : ((if 0 < start then rb.skip start else rb).toList =
            (if 0 < start then rb.toList.drop start else rb.toList)) ∧
            (if 0 < start then rb.skip start else rb).WF ∧
            (if 0 < start then rb.skip start else rb).capacity = rb.capacity := by
          by_cases hs : 0 < start
          · simp only [if_pos hs]; exact ⟨s1, s2, s3⟩
          · simp only [if_neg hs]
            exact ⟨trivial, h, trivial⟩
        set buf1 := if 0 < start then rb.skip start else rb with hbuf1
        set l1 := if 0 < start then rb.toList.drop start else rb.toList with hl1
        obtain ⟨e1, e2, e3⟩ := hb1
        have hcount1 : buf1.count = l1.length := by
          rw [← e1, RingBuffer.toList_length]
        rw [hcount1]
        by_cases hlen21 : l1.length < PACKET_LEN
        · rw [if_pos hlen21, if_pos hlen21]
          exact ⟨rfl, e1, e2, e3⟩
        · rw [if_neg hlen21, if_neg hlen21]
          have hcand : buf1.peek PACKET_LEN = l1.take PACKET_LEN := by
            rw [RingBuffer.peek_eq_take, e1]
          rw [hcand]
          obtain ⟨k1, k2, k3⟩ := RingBuffer.toList_skip buf1 PACKET_LEN e2
          obtain ⟨k1x, k2x, k3x⟩ := RingBuffer.toList_skip buf1 1 e2
          by_cases hsfx : PACKET_SUFFIX.isSuffixOf (l1.take PACKET_LEN) = true
          · rw [if_pos hsfx, if_pos hsfx]
            obtain ⟨r1, r2, r3, r4⟩ := ih (buf1.skip PACKET_LEN) k2
            rw [k1, e1] at r1 r2
            exact ⟨by simp [r1], by simp [r2], by simp [r3],
              by simpa [k3, e3] using r4⟩
          · rw [if_neg hsfx, if_neg hsfx]
            obtain ⟨r1, r2, r3, r4⟩ := ih (buf1.skip 1) k2x
            rw [k1x, e1] at r1 r2
            exact ⟨r1, r2, r3, by rw [r4, k3x, e3]⟩

/-- A byte list that the framer accepts as a frame: 21 bytes, starts with
`AA 55`, ends with `0D 0D` (the checksum is checked later, by
`_dispatch_packet`, and plays no role in framing). -/
def ValidFraming (f : List Nat) : Prop :=
  f.length = PACKET_LEN ∧ f.take 2 = PACKET_PREFIX ∧
  PACKET_SUFFIX.isSuffixOf f = true

instance (f : List Nat) : Decidable (ValidFraming f) := by
  unfold ValidFraming
  infer_instance

theorem listFind_self_front (l : List Nat) (h : l.take 2 = PACKET_PREFIX) :
    listFind l PACKET_PREFIX = some 0 := by
  have hlen : 2 ≤ l.length := by
    have := congrArg List.length h
    simp [PACKET_PREFIX] at this
    omega
  unfold listFind
  rw [if_neg (by simp [PACKET_PREFIX]), if_neg (by simp [PACKET_PREFIX]; omega)]
  have hr : l.length - PACKET_PREFIX.length + 1 =
      (l.length - PACKET_PREFIX.length) + 1 := rfl
  rw [hr, List.range_succ_eq_map, List.find?_cons_of_pos]
  simp [PACKET_PREFIX] at h ⊢
  exact h

theorem splitListLoop_frames (fs : List (List Nat)) :
    ∀ (leftover : List Nat) (fuel : Nat),
    (∀ f ∈ fs, ValidFraming f) →
    leftover.length < PACKET_LEN →
    (leftover = [] ∨ leftover.take 2 = PACKET_PREFIX) →
    (fs.length + (if leftover.isEmpty then 0 else 1) ≤ fuel ∨
      (fs = [] ∧ leftover = [])) →
    splitListLoop fuel (fs.flatten ++ leftover) = (fs, leftover) := by
  induction fs with
  | nil =>
    intro leftover fuel _ hl hp hfuel
    rcases hp with hp | hp
    · subst hp
      cases fuel <;> simp [splitListLoop]
    · have hlen2 : 2 ≤ leftover.length := by
        have := congrArg List.length hp
        simp [PACKET_PREFIX] at this
        omega
      have hne : ¬leftover.isEmpty := by
        cases leftover <;> simp_all
      obtain ⟨m, hm⟩ : ∃ m, fuel = m + 1 := by
        rcases hfuel with hfuel | ⟨_, hfuel⟩
        · rw [if_neg hne] at hfuel
          exact ⟨fuel - 1, by omega⟩
        · exact absurd hfuel (by cases leftover <;> simp_all)
      subst hm
      rw [splitListLoop]
      simp only [List.flatten_nil, List.nil_append]
      rw [if_neg (by omega), listFind_self_front leftover hp]
      dsimp only
      rw [if_neg (lt_irrefl 0), if_pos hl]
  | cons f rest ih =>
    intro leftover fuel hf hl hp hfuel
    have hvf : ValidFraming f := hf f (by simp)
    obtain ⟨hflen, hfpre, hfsfx⟩ := hvf
    obtain ⟨m, hm⟩ : ∃ m, fuel = m + 1 := by
      rcases hfuel with hfuel | ⟨hfuel, _⟩
      · simp only [List.length_cons] at hfuel
        exact ⟨fuel - 1, by omega⟩
      · exact absurd hfuel (by simp)
    subst hm
    have hcontent : (f :: rest).flatten ++ leftover =
        f ++ (rest.flatten ++ leftover) := by simp
    rw [hcontent, splitListLoop]
    have hclen : (f ++ (rest.flatten ++ leftover)).length =
        PACKET_LEN + (rest.flatten ++ leftover).length := by
      simp [hflen]
    rw [if_neg (by rw [hclen]; simp [PACKET_LEN])]
    have hpre2 : (f ++ (rest.flatten ++ leftover)).take 2 = PACKET_PREFIX := by
      rw [List.take_append_of_le_length (by rw [hflen]; simp [PACKET_LEN])]
      exact hfpre
    rw [listFind_self_front _ hpre2]
    dsimp only
    rw [if_neg (lt_irrefl 0), if_neg (by rw [hclen]; omega)]
    have hcand : (f ++ (rest.flatten ++ leftover)).take PACKET_LEN = f := by
      conv_lhs => rw [← hflen]
      exact List.take_left f _
    have hdrop : (f ++ (rest.flatten ++ leftover)).drop PACKET_LEN =
        rest.flatten ++ leftover := by
      conv_lhs => rw [← hflen]
      exact List.drop_left f _
    rw [hcand, if_pos hfsfx, hdrop,
      ih leftover m (fun g hg => hf g (by simp [hg])) hl hp ?_]
    rcases hfuel with hfuel | ⟨hfuel, _⟩
    · left
      simp only [List.length_cons] at hfuel
      omega
    · exact absurd hfuel (by simp)

theorem flatten_length_21 (fr : List (List Nat))
    (hf : ∀ f ∈ fr, f.length = PACKET_LEN) :
    fr.flatten.length = 21 * fr.length := by
  induction fr with
  | nil => simp
  | cons f rest ih =>
    simp only [List.flatten_cons, List.length_append, List.length_cons]
    have h1 : f.length = 21 := hf f (by simp)
    rw [h1, ih fun g hg => hf g (by simp [hg])]
    ring

theorem flatten_take_decomp (fr : List (List Nat)) :
    ∀ L : Nat, (∀ f ∈ fr, f.length = PACKET_LEN) → L ≤ fr.flatten.length →
    (fr.flatten.take L =
      (fr.take (L / 21)).flatten ++ (fr.drop (L / 21)).flatten.take (L % 21)) ∧
    fr.flatten.drop L = (fr.drop (L / 21)).flatten.drop (L % 21) := by
  induction fr with
  | nil =>
    intro L _ hL
    simp only [List.flatten_nil, List.length_nil, Nat.le_zero] at hL
    subst hL
    simp
  | cons f rest ih =>
    intro L hf hL
    have hflen : f.length = 21 := hf f (by simp)
    by_cases h21 : L < 21
    · have hdiv : L / 21 = 0 := Nat.div_eq_of_lt h21
      have hmod : L % 21 = L := Nat.mod_eq_of_lt h21
      rw [hdiv, hmod]
      simp
    · have hge : 21 ≤ L := by omega
      have hdiv : L / 21 = (L - 21) / 21 + 1 := Nat.div_eq_sub_div (by norm_num) hge
      have hmod : L % 21 = (L - 21) % 21 := Nat.mod_eq_sub_mod hge
      have hrest : L - 21 ≤ rest.flatten.length := by
        simp only [List.flatten_cons, List.length_append, hflen] at hL
        omega
      obtain ⟨d1, d2⟩ := ih (L - 21) (fun g hg => hf g (by simp [hg])) hrest
      rw [hdiv, hmod]
      constructor
      · simp only [List.flatten_cons, List.take_succ_cons, List.flatten_cons,
          List.drop_succ_cons]
        rw [List.take_append_eq_append_take, List.take_of_length_le (by omega),
          hflen, d1, List.append_assoc]
      · simp only [List.flatten_cons, List.drop_succ_cons]
        rw [List.drop_append_eq_append_drop, List.drop_of_length_le (by omega),
          hflen, d2, List.nil_append]

theorem feedMany_frames : ∀ (chunks fr : List (List Nat)) (leftover : List Nat)
    (rb : RingBuffer),
    rb.WF → rb.capacity = 4096 → rb.toList = leftover →
    (∀ f ∈ fr, ValidFraming f) →
    leftover.length < PACKET_LEN →
    (leftover = [] ∨ leftover.take 2 = PACKET_PREFIX) →
    leftover ++ chunks.flatten = fr.flatten →
    (∀ k, (leftover.length + ((chunks.take k).flatten).length) % 21 ≠ 1) →
    fr.flatten.length ≤ 4096 →
    (feedMany rb chunks).1 = fr := by
  intro chunks
  induction chunks with
  | nil =>
    intro fr leftover rb _ _ _ hvf hl _ hcat _ _
    simp only [List.flatten_nil, List.append_nil] at hcat
    have hfl : fr.flatten.length = 21 * fr.length :=
      flatten_length_21 fr fun f hf => (hvf f hf).1
    have hfr : fr = [] := by
      cases fr with
      | nil => rfl
      | cons g gs =>
        exfalso
        have hlen := congrArg List.length hcat
        simp only [PACKET_LEN] at hl
        rw [hfl] at hlen
        simp only [List.length_cons] at hlen
        omega
    subst hfr
    rfl
  | cons c cs ih =>
    intro fr leftover rb hwf hcap htl hvf hl hshape hcat hbound h4096
    by_cases hce : c.isEmpty
    · have hc0 : c = [] := by cases c <;> simp_all
      subst hc0
      have hstep : (feedMany rb ([] :: cs)).1 = (feedMany rb cs).1 := by
        simp [feedMany, feed]
      rw [hstep]
      refine ih fr leftover rb hwf hcap htl hvf hl hshape ?_ ?_ h4096
      · simpa using hcat
      · intro k
        have hb := hbound (k + 1)
        simpa using hb
    · have hcount : rb.count = leftover.length := by
        rw [← RingBuffer.toList_length, htl]
      have hLle : leftover.length + c.length ≤ fr.flatten.length := by
        have hlen := congrArg List.length hcat
        simp only [List.length_append, List.flatten_cons, List.length_cons] at hlen
        omega
      obtain ⟨ha1, ha2, ha3⟩ := RingBuffer.toList_append rb c hwf
        (by rw [hcount, hcap]; omega)
      rw [htl] at ha1
      set L := leftover.length + c.length with hLdef
      have hcount2 : (rb.append c).count = L := by
        rw [← RingBuffer.toList_length, ha1]
        simp [hLdef]
      have hff : ∀ f ∈ fr, f.length = PACKET_LEN := fun f hf => (hvf f hf).1
      obtain ⟨hdec1, hdec2⟩ := flatten_take_decomp fr L hff hLle
      have hassoc : (leftover ++ c) ++ cs.flatten = fr.flatten := by
        rw [← hcat]
        simp
      have htakeL : fr.flatten.take L = leftover ++ c := by
        rw [← hassoc, List.take_append_of_le_length (by simp [hLdef]),
          List.take_of_length_le (by simp [hLdef])]
      have hdropL : fr.flatten.drop L = cs.flatten := by
        rw [← hassoc, List.drop_append_eq_append_drop,
          List.drop_of_length_le (by simp [hLdef])]
        simp [hLdef]
      set q := L / 21 with hqdef
      set r := L % 21 with hrdef
      set fs1 := fr.take q with hfs1def
      set fr2 := fr.drop q with hfr2def
      set leftover2 := fr2.flatten.take r with hlo2def
      have hLqr : L = 21 * q + r := (Nat.div_add_mod L 21).symm
      have hsplit_content : leftover ++ c = fs1.flatten ++ leftover2 := by
        rw [← htakeL, hdec1]
      have hfs1flat : fs1.flatten.length = 21 * fs1.length :=
        flatten_length_21 fs1 fun f hf => hff f (by
          rw [hfs1def] at hf
          exact List.mem_of_mem_take hf)
      have hfr2flat : fr2.flatten.length = 21 * fr2.length :=
        flatten_length_21 fr2 fun f hf => hff f (by
          rw [hfr2def] at hf
          exact List.mem_of_mem_drop hf)
      have hfs1len : fs1.length ≤ q := by
        rw [hfs1def]
        simp [List.length_take]
      have hL2 : L = fs1.flatten.length + leftover2.length := by
        have hlc := congrArg List.length hsplit_content
        simp only [List.length_append] at hlc
        omega
      have hlo2le : leftover2.length ≤ r := by
        rw [hlo2def]
        simp [List.length_take]
      have hlo2 : leftover2.length = r ∧ fs1.length = q := by
        constructor <;> omega
      have hrlt : r < 21 := Nat.mod_lt _ (by norm_num)
      have hrne1 : r ≠ 1 := by
        have hb := hbound 1
        simp only [List.take_succ_cons, List.take_zero, List.flatten_cons,
          List.flatten_nil, List.append_nil] at hb
        omega
      have hshape2 : leftover2 = [] ∨ leftover2.take 2 = PACKET_PREFIX := by
        by_cases hr0 : r = 0
        · left
          rw [hlo2def, hr0]
          simp
        · right
          have hr2 : 2 ≤ r := by omega
          have hfr2ne : fr2 ≠ [] := by
            intro hcontra
            have hz : leftover2 = [] := by rw [hlo2def, hcontra]; simp
            rw [hz] at hlo2
            simp only [List.length_nil] at hlo2
            omega
          obtain ⟨g, gs, hgg⟩ := List.exists_cons_of_ne_nil hfr2ne
          have hgmem : g ∈ fr := by
            have h1 : g ∈ fr.drop q := by rw [← hfr2def, hgg]; simp
            exact List.mem_of_mem_drop h1
          have hg21 : g.length = 21 := hff g hgmem
          have hgpre : g.take 2 = PACKET_PREFIX := (hvf g hgmem).2.1
          rw [hlo2def, hgg]
          simp only [List.flatten_cons]
          rw [List.take_append_of_le_length (by omega), List.take_take,
            Nat.min_eq_left hr2]
          exact hgpre
      have hvfs1 : ∀ f ∈ fs1, ValidFraming f := by
        intro f hf
        rw [hfs1def] at hf
        exact hvf f (List.mem_of_mem_take hf)
      have hvfr2 : ∀ f ∈ fr2, ValidFraming f := by
        intro f hf
        rw [hfr2def] at hf
        exact hvf f (List.mem_of_mem_drop hf)
      have hfuelcond : fs1.length + (if leftover2.isEmpty then 0 else 1) ≤ L ∨
          (fs1 = [] ∧ leftover2 = []) := by
        by_cases hq0 : q = 0 ∧ r = 0
        · right
          exact ⟨List.eq_nil_of_length_eq_zero (by omega),
            List.eq_nil_of_length_eq_zero (by omega)⟩
        · left
          by_cases hl2 : leftover2 = []
          · have hr0 : r = 0 := by
              rw [hl2] at hlo2
              simpa using hlo2.1.symm
            rw [hl2]
            simp only [List.isEmpty_nil, if_true]
            omega
          · rw [if_neg (by simpa [List.isEmpty_iff] using hl2)]
            have hrpos : 1 ≤ r := by
              rcases Nat.eq_zero_or_pos leftover2.length with h0 | h0
              · exact absurd (List.eq_nil_of_length_eq_zero h0) hl2
              · omega
            omega
      have hsplitlist : splitListLoop L (leftover ++ c) = (fs1, leftover2) := by
        rw [hsplit_content]
        exact splitListLoop_frames fs1 leftover2 L hvfs1
          (by simp only [PACKET_LEN]; omega) hshape2 hfuelcond
      have hbufeq := splitBufLoop_eq ((rb.append c).count) (rb.append c) ha2
      rw [hcount2, ha1, hsplitlist] at hbufeq
      obtain ⟨b1, b2, b3, b4⟩ := hbufeq
      have hfeedeq : feed rb c = splitBufLoop L (rb.append c) := by
        rw [feed, if_neg hce, splitBuf, hcount2]
      have hf1 : (feed rb c).1 = fs1 := by rw [hfeedeq, b1]
      have hf2 : (feed rb c).2.toList = leftover2 := by rw [hfeedeq]; exact b2
      have hwf2 : (feed rb c).2.WF := by rw [hfeedeq]; exact b3
      have hcap2 : (feed rb c).2.capacity = 4096 := by
        rw [hfeedeq, b4, ha3, hcap]
      have hcsflat : cs.flatten = fr2.flatten.drop r := by rw [← hdropL, hdec2]
      have hcat2 : leftover2 ++ cs.flatten = fr2.flatten := by
        rw [hlo2def, hcsflat]
        exact List.take_append_drop r fr2.flatten
      have hbound2 : ∀ k,
          (leftover2.length + ((cs.take k).flatten).length) % 21 ≠ 1 := by
        intro k
        have hb := hbound (k + 1)
        simp only [List.take_succ_cons, List.flatten_cons, List.length_append] at hb
        omega
      have hle2 : fr2.flatten.length ≤ 4096 := by
        have hsum : fr.flatten.length = fs1.flatten.length + fr2.flatten.length := by
          rw [hfs1def, hfr2def, ← List.length_append, ← List.flatten_append,
            List.take_append_drop]
        omega
      have hlt2 : leftover2.length < PACKET_LEN := by
        simp only [PACKET_LEN]
        omega
      have hrec := ih fr2 leftover2 (feed rb c).2 hwf2 hcap2 hf2 hvfr2 hlt2
        hshape2 hcat2 hbound2 hle2
      show (feed rb c).1 ++ (feedMany (feed rb c).2 cs).1 = fr
      rw [hf1, hrec, hfs1def, hfr2def, List.take_append_drop]

/-! ### Data model (const.py / models.py) -/

/-- `DeviceType` from const.py (an `IntEnum`; `value` is the enum value). -/
inductive DeviceType
  | UNKNOWN | LIGHT | LIGHTCUTOFF | DIMMINGLIGHT | OUTLET | THERMOSTAT
  | AIRCONDITIONER | VENTILATION | GASVALVE | ELEVATOR | MOTION | AIRQUALITY
deriving DecidableEq, Repr

def DeviceType.value : DeviceType → Nat
  | .UNKNOWN => 0
  | .LIGHT => 1
  | .LIGHTCUTOFF => 2
  | .DIMMINGLIGHT => 3
  | .OUTLET => 4
  | .THERMOSTAT => 5
  | .AIRCONDITIONER => 6
  | .VENTILATION => 7
  | .GASVALVE => 8
  | .ELEVATOR => 9
  | .MOTION => 10
  | .AIRQUALITY => 11

/-- `SubType` from const.py. -/
inductive SubType
  | NONE | DIRECTION | FLOOR | ERRCODE | HEATTEMP | HOTTEMP | CO2
  | PM10 | PM25 | VOC | TEMP | HUMIDITY
deriving DecidableEq, Repr

def SubType.value : SubType → Nat
  | .NONE => 0
  | .DIRECTION => 1
  | .FLOOR => 2
  | .ERRCODE => 3
  | .HEATTEMP => 4
  | .HOTTEMP => 5
  | .CO2 => 6
  | .PM10 => 7
  | .PM25 => 8
  | .VOC => 9
  | .TEMP => 10
  | .HUMIDITY => 11

/-- Home Assistant `Platform` values used by the integration. -/
inductive Platform
  | LIGHT | SWITCH | CLIMATE | FAN | SENSOR | BINARY_SENSOR
deriving DecidableEq, Repr

/-- `DEVICE_TYPE_MAP` from models.py (device-type byte on the wire). -/
def DEVICE_TYPE_MAP (code : Nat) : Option DeviceType :=
  if code = 0x0E then some .LIGHT
  else if code = 0x3B then some .OUTLET
  else if code = 0x36 then some .THERMOSTAT
  else if code = 0x39 then some .AIRCONDITIONER
  else if code = 0x48 then some .VENTILATION
  else if code = 0x2C then some .GASVALVE
  else if code = 0x44 then some .ELEVATOR
  else if code = 0x60 then some .MOTION
  else if code = 0x98 then some .AIRQUALITY
  else none

/-- `AIRCONDITIONER_HVAC_MAP` from models.py (HVAC mode strings as in
Home Assistant's `HVACMode`). -/
def AIRCONDITIONER_HVAC_MAP (b : Nat) : Option String :=
  if b = 0x00 then some "cool"
  else if b = 0x01 then some "fan_only"
  else if b = 0x02 then some "dry"
  else if b = 0x03 then some "auto"
  else none

/-- `AIRCONDITIONER_FAN_MAP` from models.py. -/
def AIRCONDITIONER_FAN_MAP (b : Nat) : Option String :=
  if b = 0x01 then some "low"
  else if b = 0x02 then some "medium"
  else if b = 0x03 then some "high"
  else if b = 0x04 then some "auto"
  else none

/-- `VENTILATION_PRESET_MAP` from models.py. -/
def VENTILATION_PRESET_MAP (b : Nat) : Option String :=
  if b = 0x00 then some "unknown"
  else if b = 0x01 then some "ventilation"
  else if b = 0x02 then some "auto"
  else if b = 0x03 then some "bypass"
  else if b = 0x05 then some "sleep"
  else if b = 0x08 then some "air purification"
  else none

/-- `ELEVATOR_DIRECTION_MAP` from models.py. -/
def ELEVATOR_DIRECTION_MAP (b : Nat) : Option String :=
  if b = 0x00 then some "idle"
  else if b = 0x01 then some "downward"
  else if b = 0x02 then some "upward"
  else if b = 0x03 then some "arrival"
  else none

/-- `DeviceKey` from models.py. -/
structure DeviceKey where
  device_type : DeviceType
  room_index : Nat
  device_index : Nat
  sub_type : SubType
deriving DecidableEq, Repr

/-- `DeviceKey.key`: the 4-tuple hash key. -/
def DeviceKey.key (k : DeviceKey) : Nat × Nat × Nat × Nat :=
  (k.device_type.value, k.room_index, k.device_index, k.sub_type.value)

/-- `DeviceKey.unique_id`. -/
def DeviceKey.unique_id (k : DeviceKey) : String :=
  toString k.device_type.value ++ "-" ++ toString k.room_index ++ "_" ++
  toString k.device_index ++ "-" ++ toString k.sub_type.value

/-- The scalar values that appear inside a state dict (HVAC modes and
presets are strings, temperatures are Python floats modelled as `ℚ`,
speeds are ints, power flags are bools). -/
inductive SVal
  | b (v : Bool) | n (v : Nat) | q (v : ℚ) | s (v : String)
deriving DecidableEq, Repr

/-- `DeviceState.state`: `bool | int | float | str | dict`. -/
inductive StateVal
  | b (v : Bool) | n (v : Nat) | q (v : ℚ) | s (v : String)
  | dict (v : List (String × SVal))
deriving DecidableEq, Repr

/-- The values that appear inside an attribute dict. -/
inductive AttrVal
  | s (v : String) | q (v : ℚ) | b (v : Bool) | n (v : Nat)
  | sList (v : List String) | nList (v : List Nat)
  | sDict (v : List (String × String))
deriving DecidableEq, Repr

/-- `DeviceState` from models.py.  The dataclass field `attribute` is
spelled `attr` here because `attribute` is a Lean keyword.  `isRegister`
models the dynamically attached `_is_register` flag
(`getattr(dev, "_is_register", True)` defaults to `True`); it is not part
of the dataclass equality, and the code never compares whole
`DeviceState` values, only the `platform`, `state` and `attribute`
fields, so carrying it as a plain field is faithful. -/
structure DeviceState where
  key : DeviceKey
  platform : Platform
  attr : List (String × AttrVal)
  state : StateVal
  isRegister : Bool := true
deriving DecidableEq, Repr

/-- Association-list `get`, modelling Python `dict.get`. -/
def alistGet {α β : Type} [BEq α] (l : List (α × β)) (k : α) : Option β :=
  (l.find? fun p => p.1 == k).map Prod.snd

/-- Association-list `set`, modelling Python `dict.__setitem__`
(insertion order preserved, as in Python 3.7+ dicts). -/
def alistSet {α β : Type} [BEq α] (l : List (α × β)) (k : α) (v : β) :
    List (α × β) :=
  if l.any (fun p => p.1 == k) then
    l.map fun p => if p.1 == k then (k, v) else p
  else l ++ [(k, v)]

/-- Association-list `pop`, modelling Python `dict.pop(k, None)`. -/
def alistPop {α β : Type} [BEq α] (l : List (α × β)) (k : α) : List (α × β) :=
  l.filter fun p => !(p.1 == k)

/-- The keys of `KocomController._device_storage`.  The source uses
f-strings (`f"{uid}_thermo_step"`, `"ventil_modes"`, ...); the distinct
suffixes make the string keys collision-free, so an inductive key type is
an equivalent rendering. -/
inductive StoreKey
  | thermoStep (uid : String)
  | thermoTarget (uid : String)
  | thermoCurrent (uid : String)
  | ventilFeature
  | ventilModes
  | availableFloor
deriving DecidableEq, Repr

/-- The values stored in `_device_storage`: floats (thermostat step and
temperatures), bools (`ventil_feature`, `available_floor`) and string
lists (`ventil_modes`). -/
inductive StoreVal
  | q (v : ℚ) | b (v : Bool) | sList (v : List String)
deriving DecidableEq, Repr

abbrev Storage := List (StoreKey × StoreVal)

def Storage.get (st : Storage) (k : StoreKey) : Option StoreVal := alistGet st k

def Storage.set (st : Storage) (k : StoreKey) (v : StoreVal) : Storage :=
  alistSet st k v

/-! ### Entity registry and gateway state (gateway.py) -/

/-- `EntityRegistry` from gateway.py: `_states`, `_shadow` and
`by_platform` (the latter keyed by platform, then by unique id). -/
structure EntityRegistry where
  states : List ((Nat × Nat × Nat × Nat) × DeviceState)
  shadow : List ((Nat × Nat × Nat × Nat) × DeviceState)
  by_platform : List (Platform × List (String × DeviceState))
deriving DecidableEq, Repr

def EntityRegistry.init : EntityRegistry := ⟨[], [], []⟩

/-- `self.by_platform.setdefault(dev.platform, {})[uid] = dev`. -/
def EntityRegistry.bpSet (bp : List (Platform × List (String × DeviceState)))
    (p : Platform) (uid : String) (dev : DeviceState) :
    List (Platform × List (String × DeviceState)) :=
  alistSet bp p (alistSet ((alistGet bp p).getD []) uid dev)

/-- `self.by_platform.get(old.platform, {}).pop(uid, None)` (a pop on the
dict stored under `old.platform`; a missing platform entry pops from a
temporary empty dict, leaving `by_platform` unchanged). -/
def EntityRegistry.bpPop (bp : List (Platform × List (String × DeviceState)))
    (p : Platform) (uid : String) :
    List (Platform × List (String × DeviceState)) :=
  match alistGet bp p with
  | some d => alistSet bp p (alistPop d uid)
  | none => bp

/-- `EntityRegistry.upsert`.  Returns the updated registry together with
the `(is_new, changed)` pair of the source. -/
def EntityRegistry.upsert (reg : EntityRegistry) (dev : DeviceState)
    (allow_insert : Bool) : EntityRegistry × Bool × Bool :=
  let k := dev.key.key
  match alistGet reg.states k with
  | none =>
    if !allow_insert then (reg, false, false)
    else
      ({ reg with
          states := alistSet reg.states k dev,
          by_platform :=
            EntityRegistry.bpSet reg.by_platform dev.platform dev.key.unique_id dev },
        true, true)
  | some old =>
    let platform_changed := old.platform ≠ dev.platform
    let state_changed := old.state ≠ dev.state
    let attr_changed := old.attr ≠ dev.attr
    if platform_changed ∨ state_changed ∨ attr_changed then
      let bp1 := if platform_changed then
          EntityRegistry.bpPop reg.by_platform old.platform old.key.unique_id
        else reg.by_platform
      ({ reg with
          states := alistSet reg.states k dev,
          by_platform :=
            EntityRegistry.bpSet bp1 dev.platform dev.key.unique_id dev },
        false, true)
    else (reg, false, false)

/-- `EntityRegistry.get` (`include_shadow` defaults to `False` in the
source; call sites pass it explicitly here). -/
def EntityRegistry.get (reg : EntityRegistry) (key : DeviceKey)
    (include_shadow : Bool) : Option DeviceState :=
  match alistGet reg.states key.key with
  | some dev => some dev
  | none => if include_shadow then alistGet reg.shadow key.key else none

/-- The gateway state the decode path touches: the registry, the
controller's `_device_storage` and `_force_register_uid`. -/
structure GwState where
  registry : EntityRegistry
  storage : Storage
  force_register_uid : Option String := none
deriving DecidableEq, Repr

def GwState.init : GwState := ⟨EntityRegistry.init, [], none⟩

/-- `KocomGateway.on_device_state` (the dispatcher notifications are
external to the model; only the registry effect is kept). -/
def onDeviceState (gw : GwState) (dev : DeviceState) : GwState :=
  let allow_insert :=
    if dev.key.device_type = DeviceType.LIGHT ∨
        dev.key.device_type = DeviceType.OUTLET then
      dev.isRegister || (gw.force_register_uid == some dev.key.unique_id)
    else true
  { gw with registry := (gw.registry.upsert dev allow_insert).1 }

/-! ### Frame accessors and decode handlers (controller.py) -/

/-- `PacketFrame` from controller.py. -/
structure PacketFrame where
  raw : List Nat
deriving DecidableEq, Repr

def PacketFrame.byte (f : PacketFrame) (i : Nat) : Nat := f.raw.getD i 0

/-- `packet_type`: high nibble of byte 3. -/
def PacketFrame.packet_type (f : PacketFrame) : Nat := (f.byte 3 >>> 4) &&& 0x0F

/-- `command`: byte 9. -/
def PacketFrame.command (f : PacketFrame) : Nat := f.byte 9

/-- `payload`: bytes 10..17. -/
def PacketFrame.payload (f : PacketFrame) : List Nat := (f.raw.drop 10).take 8

def PacketFrame.payloadByte (f : PacketFrame) (i : Nat) : Nat :=
  f.payload.getD i 0

/-- `checksum` property: byte 18. -/
def PacketFrame.checksum (f : PacketFrame) : Nat := f.byte 18

/-- `peer`: the non-wallpad side of the conversation (`dest = raw[5:7]`,
`src = raw[7:9]`, wallpad address `0x01`); frames not involving the
wallpad resolve to `(0, 0)`. -/
def PacketFrame.peer (f : PacketFrame) : Nat × Nat :=
  if f.byte 5 = 0x01 then (f.byte 7, f.byte 8)
  else if f.byte 7 = 0x01 then (f.byte 5, f.byte 6)
  else (0, 0)

/-- `dev_type`: `DEVICE_TYPE_MAP` lookup, `UNKNOWN` when absent. -/
def PacketFrame.dev_type (f : PacketFrame) : DeviceType :=
  (DEVICE_TYPE_MAP f.peer.1).getD .UNKNOWN

def PacketFrame.dev_room (f : PacketFrame) : Nat := f.peer.2

/-- `KocomController._checksum`: byte sum mod 256. -/
def checksum (buf : List Nat) : Nat := buf.sum % 256

/-- `f"{n:02}"`: zero-padded two-digit decimal. -/
def fmt02 (n : Nat) : String := if n < 10 then "0" ++ toString n else toString n

/-- Python `t % 1` for a non-negative float `t`: the fractional part. -/
def pyMod1 (x : ℚ) : ℚ := x - Rat.floor x

/-- `KocomController._handle_cutoff_switch`. -/
def handleCutoffSwitch (frame : PacketFrame) : List DeviceState :=
  if frame.command = 0x65 ∨ frame.command = 0x66 then
    [{ key := ⟨frame.dev_type, 0, 0, SubType.NONE⟩, platform := .LIGHT,
       attr := [], state := .b (frame.command == 0x65) }]
  else []

/-- `KocomController._handle_switch` (lights and outlets: one frame
reports 8 sub-devices, one payload byte each; `0xFF` means on, and
`_is_register` is set to the on/off state). -/
def handleSwitch (frame : PacketFrame) : List DeviceState :=
  if frame.command = 0x00 then
    (List.range 8).map fun idx =>
      let platform := if frame.dev_type = DeviceType.LIGHT then Platform.LIGHT
        else Platform.SWITCH
      let attr : List (String × AttrVal) :=
        if platform = Platform.SWITCH then [("device_class", .s "outlet")] else []
      let st := frame.payloadByte idx == 0xFF
      { key := ⟨frame.dev_type, frame.dev_room, idx, SubType.NONE⟩,
        platform := platform, attr := attr, state := .b st, isRegister := st }
  else []

/-- `KocomController._handle_thermostat`.  Reads of `_device_storage`
for `temp_step`, `target_temp` and `current_temp` happen before the
learning writes, exactly as in the source (lines 388-399 before
400-407), so the frame that first detects a half-degree step still
reports the old step.  The stored values are only ever floats here, so
the typed `StoreVal.q` match is exact. -/
def handleThermostat (frame : PacketFrame) (storage : Storage) :
    List DeviceState × Storage :=
  if frame.command = 0x00 then
    let key : DeviceKey := ⟨frame.dev_type, frame.dev_room, 0, SubType.NONE⟩
    let hvac_mode : String :=
      if frame.payloadByte 0 >>> 4 = 0x01 then "heat" else "off"
    let preset_mode : String :=
      if frame.payloadByte 1 &&& 0x0F = 0x01 then "away" else "none"
    let target_temp : ℚ := (frame.payloadByte 2 : ℚ)
    let current_temp : ℚ := (frame.payloadByte 4 : ℚ)
    let hot_temp := frame.payloadByte 3
    let heat_temp := frame.payloadByte 5
    let error_code := frame.payloadByte 6
    let uid := key.unique_id
    let step_val : ℚ := match storage.get (StoreKey.thermoStep uid) with
      | some (StoreVal.q v) => v
      | _ => 1
    let attr : List (String × AttrVal) :=
      [("hvac_modes", .sList ["heat", "off"]),
       ("feature_preset", .b true),
       ("preset_modes", .sList ["away", "none"]),
       ("temp_step", .q step_val)]
    let target_stored : ℚ := match storage.get (StoreKey.thermoTarget uid) with
      | some (StoreVal.q v) => v
      | _ => target_temp
    let current_stored : ℚ := match storage.get (StoreKey.thermoCurrent uid) with
      | some (StoreVal.q v) => v
      | _ => current_temp
    let st : StateVal := .dict
      [("hvac_mode", .s hvac_mode), ("preset_mode", .s preset_mode),
       ("target_temp", .q target_stored), ("current_temp", .q current_stored)]
    let storage1 :=
      if pyMod1 target_temp = 1/2 ∧
          storage.get (StoreKey.thermoStep uid) ≠ some (StoreVal.q (1/2)) then
        storage.set (StoreKey.thermoStep uid) (StoreVal.q (1/2))
      else storage
    let target_differs : Bool :=
      match storage1.get (StoreKey.thermoTarget uid) with
      | some (StoreVal.q v) => decide (v ≠ target_temp)
      | _ => true
    let storage2 :=
      if target_temp ≠ 0 ∧ current_temp ≠ 0 then
        let s1 :=
          if hvac_mode = "heat" ∧ target_differs then
            storage1.set (StoreKey.thermoTarget uid) (StoreVal.q target_temp)
          else storage1
        s1.set (StoreKey.thermoCurrent uid) (StoreVal.q current_temp)
      else storage1
    let climate : DeviceState :=
      { key := key, platform := .CLIMATE, attr := attr, state := st }
    let tempAttr : List (String × AttrVal) :=
      [("device_class", .s "temperature"), ("unit_of_measurement", .s "°C")]
    let hotStates : List DeviceState :=
      if hot_temp > 0 then
        [{ key := ⟨frame.dev_type, frame.dev_room, 0, SubType.HOTTEMP⟩,
           platform := .SENSOR, attr := tempAttr, state := .n hot_temp }]
      else []
    let heatStates : List DeviceState :=
      if heat_temp > 0 then
        [{ key := ⟨frame.dev_type, frame.dev_room, 0, SubType.HEATTEMP⟩,
           platform := .SENSOR, attr := tempAttr, state := .n heat_temp }]
      else []
    let errState : DeviceState :=
      { key := ⟨frame.dev_type, frame.dev_room, 0, SubType.ERRCODE⟩,
        platform := .BINARY_SENSOR,
        attr := [("extra_state", .sDict [("error_code", fmt02 error_code)]),
                 ("device_class", .s "problem")],
        state := .b (decide (error_code ≠ 0x00)) }
    (climate :: hotStates ++ heatStates ++ [errState], storage2)
  else ([], storage)

/-- `KocomController._handle_airconditioner` (payload byte 0 is the
power gate: mode byte is only meaningful when it is `0x10`). -/
def handleAirconditioner (frame : PacketFrame) : List DeviceState :=
  if frame.command = 0x00 then
    let hvac_mode : String :=
      if frame.payloadByte 0 = 0x10 then
        (AIRCONDITIONER_HVAC_MAP (frame.payloadByte 1)).getD "off"
      else "off"
    let fan_mode : String := (AIRCONDITIONER_FAN_MAP (frame.payloadByte 2)).getD "low"
    let current_temp : ℚ := (frame.payloadByte 4 : ℚ)
    let target_temp : ℚ := (frame.payloadByte 5 : ℚ)
    let attr : List (String × AttrVal) :=
      [("hvac_modes", .sList ["cool", "fan_only", "dry", "auto", "off"]),
       ("fan_modes", .sList ["low", "medium", "high", "auto"]),
       ("feature_fan", .b true),
       ("temp_step", .q 1)]
    let st : StateVal := .dict
      [("hvac_mode", .s hvac_mode), ("fan_mode", .s fan_mode),
       ("current_temp", .q current_temp), ("target_temp", .q target_temp)]
    [{ key := ⟨frame.dev_type, frame.dev_room, 0, SubType.NONE⟩,
       platform := .CLIMATE, attr := attr, state := st }]
  else []

/-- `KocomController._handle_ventilation`.  In the source the attribute
dict captures `storage.get("ventil_modes", [])` by reference before the
learning block mutates the list in place, so the attribute sees the
final list exactly when the key already existed (the fresh `[]` default
is a different object); `feature_preset` is an immutable bool read
before the writes. -/
def handleVentilation (frame : PacketFrame) (storage : Storage) :
    List DeviceState × Storage :=
  if frame.command = 0x00 then
    let on_state : Bool := frame.payloadByte 0 >>> 4 == 0x01
    let preset_mode : String :=
      (VENTILATION_PRESET_MAP (frame.payloadByte 1)).getD "unknown"
    let speed := frame.payloadByte 2
    let co2_value := frame.payloadByte 4 * 100 + frame.payloadByte 5
    let error_code := frame.payloadByte 6
    let feature0 : Bool := match storage.get StoreKey.ventilFeature with
      | some (StoreVal.b v) => v
      | _ => false
    let had_modes := (storage.get StoreKey.ventilModes).isSome
    let storage1 :=
      if preset_mode ≠ "unknown" ∧ preset_mode ≠ "ventilation" then
        let s1 := if (storage.get StoreKey.ventilModes).isNone then
            (storage.set StoreKey.ventilFeature (StoreVal.b true)).set
              StoreKey.ventilModes (StoreVal.sList ["ventilation"])
          else storage
        let cur : List String := match s1.get StoreKey.ventilModes with
          | some (StoreVal.sList l) => l
          | _ => []
        if preset_mode ∉ cur then
          s1.set StoreKey.ventilModes (StoreVal.sList (cur ++ [preset_mode]))
        else s1
      else storage
    let modes_final : List String :=
      if had_modes then
        match storage1.get StoreKey.ventilModes with
        | some (StoreVal.sList l) => l
        | _ => []
      else []
    let attr : List (String × AttrVal) :=
      [("feature_preset", .b feature0),
       ("preset_modes", .sList modes_final),
       ("speed_list", .nList [0x40, 0x80, 0xC0])]
    let st : StateVal := .dict
      [("state", .b on_state), ("preset_mode", .s preset_mode),
       ("speed", .n speed)]
    let fanDev : DeviceState :=
      { key := ⟨frame.dev_type, frame.dev_room, 0, SubType.NONE⟩,
        platform := .FAN, attr := attr, state := st }
    let co2States : List DeviceState :=
      if co2_value > 0 then
        [{ key := ⟨frame.dev_type, frame.dev_room, 0, SubType.CO2⟩,
           platform := .SENSOR,
           attr := [("device_class", .s "carbon_dioxide"),
                    ("unit_of_measurement", .s "ppm")],
           state := .n co2_value }]
      else []
    let errDev : DeviceState :=
      { key := ⟨frame.dev_type, frame.dev_room, 0, SubType.ERRCODE⟩,
        platform := .BINARY_SENSOR,
        attr := [("extra_state", .sDict [("error_code", fmt02 error_code)]),
                 ("device_class", .s "problem")],
        state := .b (decide (error_code ≠ 0x00)) }
    (fanDev :: co2States ++ [errDev], storage1)
  else ([], storage)

/-- `KocomController._handle_gasvalve`. -/
def handleGasvalve (frame : PacketFrame) : List DeviceState :=
  if frame.command = 0x01 ∨ frame.command = 0x02 then
    [{ key := ⟨frame.dev_type, frame.dev_room, 0, SubType.NONE⟩,
       platform := .SWITCH, attr := [], state := .b (frame.command == 0x01) }]
  else []

/-- `KocomController._handle_elevator` (floor-sensor exposure is gated on
`available_floor` having ever been set this session). -/
def handleElevator (frame : PacketFrame) (storage : Storage) :
    List DeviceState × Storage :=
  let st1 : Bool :=
    if frame.payloadByte 0 = 0x03 then false
    else if frame.payloadByte 0 = 0x01 ∨ frame.payloadByte 0 = 0x02 ∨
        frame.packet_type = 0x0D then true
    else false
  let dev1 : DeviceState :=
    { key := ⟨frame.dev_type, frame.dev_room, 0, SubType.NONE⟩,
      platform := .SWITCH, attr := [], state := .b st1 }
  let st2 : String :=
    if frame.payloadByte 0 = 0x00 ∧ frame.packet_type = 0x0D then "called"
    else (ELEVATOR_DIRECTION_MAP (frame.payloadByte 0)).getD "unknown"
  let dev2 : DeviceState :=
    { key := ⟨frame.dev_type, frame.dev_room, 0, SubType.DIRECTION⟩,
      platform := .SENSOR, attr := [], state := .s st2 }
  let st3 : String :=
    if frame.payloadByte 1 = 0x00 then "unknown"
    else if frame.payloadByte 2 ≠ 0x00 then
      String.mk [Char.ofNat (frame.payloadByte 1), Char.ofNat (frame.payloadByte 2)]
    else if frame.payloadByte 1 >>> 4 = 0x08 then
      "B" ++ toString (frame.payloadByte 1 &&& 0x0F)
    else toString (frame.payloadByte 1)
  let storage1 :=
    if st3 ≠ "" ∧ st3 ≠ "unknown" then
      storage.set StoreKey.availableFloor (StoreVal.b true)
    else storage
  let avail : Bool := match storage1.get StoreKey.availableFloor with
    | some (StoreVal.b v) => v
    | _ => false
  let floorStates : List DeviceState :=
    if avail then
      [{ key := ⟨frame.dev_type, frame.dev_room, 0, SubType.FLOOR⟩,
         platform := .SENSOR, attr := [], state := .s st3 }]
    else []
  (dev1 :: dev2 :: floorStates, storage1)

/-- `KocomController._handle_motion`. -/
def handleMotion (frame : PacketFrame) : List DeviceState :=
  if frame.command = 0x00 ∨ frame.command = 0x04 then
    [{ key := ⟨frame.dev_type, frame.dev_room, 0, SubType.NONE⟩,
       platform := .BINARY_SENSOR,
       attr := [("device_class", .s "motion")],
       state := .b (frame.command == 0x04) }]
  else []

/-- `KocomController._handle_airquality` (two-byte values big-endian;
zero readings are suppressed). -/
def handleAirquality (frame : PacketFrame) : List DeviceState :=
  if frame.command = 0x00 ∨ frame.command = 0x3A then
    let mk : SubType → String → String → Nat → List DeviceState :=
      fun sub dc unit v =>
        if v > 0 then
          [{ key := ⟨frame.dev_type, frame.dev_room, 0, sub⟩,
             platform := .SENSOR,
             attr := [("device_class", .s dc), ("unit_of_measurement", .s unit)],
             state := .n v }]
        else []
    mk SubType.PM10 "pm10" "µg/m³" (frame.payloadByte 0) ++
    mk SubType.PM25 "pm25" "µg/m³" (frame.payloadByte 1) ++
    mk SubType.CO2 "carbon_dioxide" "ppm"
      (frame.payloadByte 2 * 256 + frame.payloadByte 3) ++
    mk SubType.VOC "volatile_organic_compounds" "µg/m³"
      (frame.payloadByte 4 * 256 + frame.payloadByte 5) ++
    mk SubType.TEMP "temperature" "°C" (frame.payloadByte 6) ++
    mk SubType.HUMIDITY "humidity" "%" (frame.payloadByte 7)
  else []

/-- `KocomController._dispatch_packet`: checksum gate, dispatch by
device type, then `gateway.on_device_state` for every produced state (in
order).  Returns the updated gateway state and the emitted states. -/
def dispatchPacket (gw : GwState) (packet : List Nat) : GwState × List DeviceState :=
  let frame : PacketFrame := ⟨packet⟩
  if checksum ((packet.drop 2).take 16) ≠ frame.checksum then (gw, [])
  else
    let hr : List DeviceState × Storage :=
      match frame.dev_type with
      | .LIGHT =>
        if frame.dev_room = 0xFF then (handleCutoffSwitch frame, gw.storage)
        else (handleSwitch frame, gw.storage)
      | .OUTLET => (handleSwitch frame, gw.storage)
      | .THERMOSTAT => handleThermostat frame gw.storage
      | .AIRCONDITIONER => (handleAirconditioner frame, gw.storage)
      | .VENTILATION => handleVentilation frame gw.storage
      | .GASVALVE => (handleGasvalve frame, gw.storage)
      | .ELEVATOR => handleElevator frame gw.storage
      | .MOTION => (handleMotion frame, gw.storage)
      | .AIRQUALITY => (handleAirquality frame, gw.storage)
      | _ => ([], gw.storage)
    let gw1 : GwState := { gw with storage := hr.2 }
    if hr.1.isEmpty then (gw1, [])
    else (hr.1.foldl onDeviceState gw1, hr.1)

/-- One `KocomController.feed` call with dispatch: extract the frames and
route each through `_dispatch_packet`, collecting all emitted states. -/
def processChunk (gw : GwState) (rb : RingBuffer) (chunk : List Nat) :
    GwState × RingBuffer × List DeviceState :=
  let r := feed rb chunk
  let fin := r.1.foldl
    (fun acc pkt =>
      let d := dispatchPacket acc.1 pkt
      (d.1, acc.2 ++ d.2))
    (gw, ([] : List DeviceState))
  (fin.1, r.2, fin.2)

/-! ### Confirmation predicates (controller.py) -/

/-- `CMD_CONFIRM_TIMEOUT` from const.py (1.2 seconds). -/
def CMD_CONFIRM_TIMEOUT : ℚ := 12/10

/-- What `build_expectation` returns in the predicate slot: normally a
closure, but `_expect_for_gasvalve` returns the bare boolean `True` for
`turn_on` (controller.py line 711). -/
inductive ExpectVal
  | pred (f : DeviceState → Bool)
  | lit (b : Bool)

/-- How `_notify_pendings` (gateway.py) evaluates the stored predicate on
a decoded state: `p.predicate(dev)`.  Calling a bare boolean raises
`TypeError`, which the surrounding `except Exception: continue` swallows,
so a non-callable accepts nothing. -/
def waiterAccepts : ExpectVal → DeviceState → Bool
  | .pred f, dev => f dev
  | .lit _, _ => false

/-- The keyword arguments of the control actions (`kwargs["preset_mode"]`
etc.; each action reads only the arguments its callers pass). -/
structure Kwargs where
  preset_mode : String := ""
  speed : Nat := 0
  hvac_mode : String := ""
  fan_mode : String := ""
  target_temp : ℚ := 0
deriving Repr

/-- Python truthiness of a state value (`bool(dev.state)`). -/
def pyBool : StateVal → Bool
  | .b v => v
  | .n v => v != 0
  | .q v => decide (v ≠ 0)
  | .s v => v != ""
  | .dict d => !d.isEmpty

/-- `isinstance(d.state, dict)`. -/
def StateVal.isDict : StateVal → Bool
  | .dict _ => true
  | _ => false

/-- `d.state.get(k)` on a state dict (and `None` otherwise). -/
def StateVal.dget : StateVal → String → Option SVal
  | .dict d, k => alistGet d k
  | _, _ => none

/-- `KocomController._match_key_and`: predicate scoped to the exact
identity first. -/
def matchKeyAnd (key : DeviceKey) (cond : DeviceState → Bool) :
    DeviceState → Bool :=
  fun dev => if dev.key.key ≠ key.key then false else cond dev

/-- `KocomController._expect_for_switch_like`. -/
def expectForSwitchLike (key : DeviceKey) (action : String) : ExpectVal × ℚ :=
  if action = "turn_on" then
    (.pred (matchKeyAnd key fun dev => pyBool dev.state == true),
      CMD_CONFIRM_TIMEOUT)
  else if action = "turn_off" then
    (.pred (matchKeyAnd key fun dev => pyBool dev.state == false),
      CMD_CONFIRM_TIMEOUT)
  else (.pred (matchKeyAnd key fun _ => false), CMD_CONFIRM_TIMEOUT)

/-- `KocomController._expect_for_ventilation`. -/
def expectForVentilation (key : DeviceKey) (action : String)
    (kwargs : Kwargs) : ExpectVal × ℚ :=
  if action = "turn_on" then
    (.pred (matchKeyAnd key fun d =>
      d.state.isDict && (d.state.dget "state" == some (.b true))),
      CMD_CONFIRM_TIMEOUT)
  else if action = "turn_off" then
    (.pred (matchKeyAnd key fun d =>
      d.state.isDict && (d.state.dget "state" == some (.b false))),
      CMD_CONFIRM_TIMEOUT)
  else if action = "set_preset" then
    (.pred (matchKeyAnd key fun d =>
      d.state.isDict && (d.state.dget "preset_mode" == some (.s kwargs.preset_mode))),
      CMD_CONFIRM_TIMEOUT)
  else if action = "set_percentage" then
    (.pred (matchKeyAnd key fun d =>
      d.state.isDict && (d.state.dget "speed" == some (.n kwargs.speed))),
      CMD_CONFIRM_TIMEOUT)
  else (.pred (matchKeyAnd key fun _ => false), CMD_CONFIRM_TIMEOUT)

/-- `KocomController._expect_for_gasvalve` (note the bare `True` for
`turn_on`, and the raised base timeout). -/
def expectForGasvalve (key : DeviceKey) (action : String) : ExpectVal × ℚ :=
  let base_timeout : ℚ := max CMD_CONFIRM_TIMEOUT (3/2)
  if action = "turn_on" then (.lit true, base_timeout)
  else if action = "turn_off" then
    (.pred (matchKeyAnd key fun d => pyBool d.state == false), base_timeout)
  else (.pred (matchKeyAnd key fun _ => false), base_timeout)

/-- `KocomController._expect_for_thermostat`. -/
def expectForThermostat (key : DeviceKey) (action : String)
    (kwargs : Kwargs) : ExpectVal × ℚ :=
  if action = "set_hvac" then
    (.pred (matchKeyAnd key fun d =>
      d.state.isDict && (d.state.dget "hvac_mode" == some (.s kwargs.hvac_mode))),
      CMD_CONFIRM_TIMEOUT)
  else if action = "set_preset" then
    (.pred (matchKeyAnd key fun d =>
      d.state.isDict && (d.state.dget "preset_mode" == some (.s kwargs.preset_mode))),
      CMD_CONFIRM_TIMEOUT)
  else if action = "set_temperature" then
    (.pred (matchKeyAnd key fun d =>
      d.state.isDict && (d.state.dget "target_temp" == some (.q kwargs.target_temp))),
      max CMD_CONFIRM_TIMEOUT (3/2))
  else if action = "turn_on" then
    (.pred (matchKeyAnd key fun d =>
      d.state.isDict && (d.state.dget "state" == some (.b true))),
      CMD_CONFIRM_TIMEOUT)
  else if action = "turn_off" then
    (.pred (matchKeyAnd key fun d =>
      d.state.isDict && (d.state.dget "state" == some (.b false))),
      CMD_CONFIRM_TIMEOUT)
  else (.pred (matchKeyAnd key fun _ => false), CMD_CONFIRM_TIMEOUT)

/-- `KocomController._expect_for_airconditioner`. -/
def expectForAirconditioner (key : DeviceKey) (action : String)
    (kwargs : Kwargs) : ExpectVal × ℚ :=
  if action = "set_hvac" then
    (.pred (matchKeyAnd key fun d =>
      d.state.isDict && (d.state.dget "hvac_mode" == some (.s kwargs.hvac_mode))),
      CMD_CONFIRM_TIMEOUT)
  else if action = "set_fan" then
    (.pred (matchKeyAnd key fun d =>
      d.state.isDict && (d.state.dget "fan_mode" == some (.s kwargs.fan_mode))),
      CMD_CONFIRM_TIMEOUT)
  else if action = "set_preset" then
    (.pred (matchKeyAnd key fun d =>
      d.state.isDict && (d.state.dget "preset_mode" == some (.s kwargs.preset_mode))),
      CMD_CONFIRM_TIMEOUT)
  else if action = "set_temperature" then
    (.pred (matchKeyAnd key fun d =>
      d.state.isDict && (d.state.dget "target_temp" == some (.q kwargs.target_temp))),
      max CMD_CONFIRM_TIMEOUT (3/2))
  else if action = "turn_on" then
    (.pred (matchKeyAnd key fun d =>
      d.state.isDict && (d.state.dget "state" == some (.b true))),
      CMD_CONFIRM_TIMEOUT)
  else if action = "turn_off" then
    (.pred (matchKeyAnd key fun d =>
      d.state.isDict && (d.state.dget "state" == some (.b false))),
      CMD_CONFIRM_TIMEOUT)
  else (.pred (matchKeyAnd key fun _ => false), CMD_CONFIRM_TIMEOUT)

/-- `KocomController.build_expectation`. -/
def build_expectation (key : DeviceKey) (action : String)
    (kwargs : Kwargs) : ExpectVal × ℚ :=
  if action = "query" then
    (.pred fun dev => decide (dev.key.key = key.key), CMD_CONFIRM_TIMEOUT)
  else if key.device_type = .LIGHT ∨ key.device_type = .LIGHTCUTOFF ∨
      key.device_type = .OUTLET ∨ key.device_type = .ELEVATOR then
    expectForSwitchLike key action
  else if key.device_type = .VENTILATION then
    expectForVentilation key action kwargs
  else if key.device_type = .GASVALVE then
    expectForGasvalve key action
  else if key.device_type = .THERMOSTAT then
    expectForThermostat key action kwargs
  else if key.device_type = .AIRCONDITIONER then
    expectForAirconditioner key action kwargs
  else (.pred (matchKeyAnd key fun _ => false), CMD_CONFIRM_TIMEOUT)

/-! ### Command encoding for lights/outlets (controller.py) -/

/-- `KocomController._generate_switch`: rebuild the full 8-byte payload.
For `query` the all-zero payload is sent unchanged; otherwise the other
7 sub-device bytes are re-read from the registry (shadow included,
`st and st.state is True`), and the target byte is set from the
action. -/
def generate_switch (reg : EntityRegistry) (key : DeviceKey)
    (action : String) (data : List Nat) : List Nat :=
  if action = "query" then data
  else
    (List.range 8).foldl
      (fun d idx =>
        let new_key := { key with device_index := idx }
        let st := reg.get new_key true
        if idx ≠ key.device_index then
          let bit : Nat := match st with
            | some dev => if dev.state == StateVal.b true then 0xFF else 0x00
            | none => 0x00
          d.set idx bit
        else
          d.set idx (if action = "turn_on" then 0xFF else 0x00))
      data

/-! ### The command queue (gateway.py) -/

/-- `_CmdItem` (gateway.py); the `future` result slot is external to the
model. -/
structure CmdItem where
  key : DeviceKey
  action : String
deriving DecidableEq, Repr

/-- The gateway's `_tx_queue`: `asyncio.Queue(maxsize=50)`
(gateway.py line 136). -/
structure TxQueue where
  items : List CmdItem
  maxsize : Nat
deriving DecidableEq, Repr

def TxQueue.init : TxQueue := ⟨[], 50⟩

/-- `asyncio.Queue.full()`: `qsize() >= maxsize` (for positive
`maxsize`). -/
def TxQueue.full (q : TxQueue) : Bool := q.maxsize ≤ q.items.length

/-- The queue effect of `KocomGateway.async_send_action`: a full queue is
rejected immediately with `False`; otherwise the item is enqueued (the
`full()` check and the `put` run with no suspension point between them,
so the put never blocks).  Returns whether the item was accepted. -/
def async_send_action (q : TxQueue) (item : CmdItem) : Bool × TxQueue :=
  if q.full then (false, q)
  else (true, { q with items := q.items ++ [item] })

/-- `_sender_loop`'s `await self._tx_queue.get()`: removes the oldest
item (on an empty queue `get` suspends, leaving the queue unchanged). -/
def TxQueue.take (q : TxQueue) : TxQueue := { q with items := q.items.drop 1 }

inductive QOp
  | submit (item : CmdItem)
  | take

def TxQueue.applyOp (q : TxQueue) : QOp → TxQueue
  | .submit item => (async_send_action q item).2
  | .take => q.take

def TxQueue.applyOps (q : TxQueue) (ops : List QOp) : TxQueue :=
  ops.foldl TxQueue.applyOp q

/-! ### Reconnect backoff (transport.py) -/

/-- The delay/backoff state update of one `AsyncConnection.reconnect`
attempt.  `st` is `_last_reconn_delay` (`0.0` after `__post_init__`),
`success` is whether `open()` succeeded.  Returns the delay slept before
this attempt and the new `_last_reconn_delay`: it is first set to
`min(delay * 2, delay_max)` and overwritten with `delay_min` when the
attempt succeeds. -/
def reconnectStep (backoff_min backoff_max st : ℚ) (success : Bool) : ℚ × ℚ :=
  let delay := if 0 < st then st else backoff_min
  let next := min (delay * 2) backoff_max
  (delay, if success then backoff_min else next)

/-- The sequence of delays slept over a run of reconnect attempts with
the given outcomes. -/
def backoffDelays (backoff_min backoff_max : ℚ) : ℚ → List Bool → List ℚ
  | _, [] => []
  | st, b :: rest =>
    let r := reconnectStep backoff_min backoff_max st b
    r.1 :: backoffDelays backoff_min backoff_max r.2 rest

/-! ### RingBuffer operation sequences (for the safety claim) -/

inductive BufOp
  | append (data : List Nat)
  | peek (n : Nat)
  | skip (n : Nat)
  | clear
  | find (p : List Nat)

/-- The state effect of each public `RingBuffer` operation (`peek` and
`find` only read). -/
def RingBuffer.applyOp (rb : RingBuffer) : BufOp → RingBuffer
  | .append data => rb.append data
  | .peek _ => rb
  | .skip n => rb.skip n
  | .clear => rb.clear
  | .find _ => rb

def RingBuffer.applyOps (rb : RingBuffer) (ops : List BufOp) : RingBuffer :=
  ops.foldl RingBuffer.applyOp rb

/-! ### Supporting lemmas for the safety claim -/

theorem RingBuffer.toList_append1_full (rb : RingBuffer) (b : Nat) (h : rb.WF)
    (hc : rb.count = rb.capacity) :
    (rb.append1 b).toList = rb.toList.drop 1 ++ [b] ∧ (rb.append1 b).WF ∧
    (rb.append1 b).count = rb.count := by
  obtain ⟨hlen, hhead, hcnt, htail, hpos⟩ := h
  have hht : rb.head = rb.tail := by
    rw [hhead, hc, Nat.add_mod_right, Nat.mod_eq_of_lt htail]
  have hnc : ¬ rb.count < rb.capacity := by omega
  obtain ⟨m, hm⟩ : ∃ m, rb.capacity = m + 1 := ⟨rb.capacity - 1, by omega⟩
  have hhb : rb.head < rb.buffer.length := by rw [hlen, hht]; exact htail
  have htail' : rb.tail < m + 1 := by omega
  refine ⟨?_, ⟨?_, ?_, ?_, ?_, ?_⟩, ?_⟩
  · simp only [RingBuffer.append1, if_neg hnc, RingBuffer.toList]
    rw [hc, hm]
    have hdrop : List.drop 1 ((List.range (m + 1)).map
        fun i => rb.buffer.getD ((rb.tail + i) % (m + 1)) 0) =
        (List.range m).map
          fun i => rb.buffer.getD ((rb.tail + (i + 1)) % (m + 1)) 0 := by
      rw [List.range_succ_eq_map, List.map_cons, List.drop_succ_cons,
        List.drop_zero, List.map_map]
      apply List.map_congr_left
      intro i _
      simp [Function.comp, Nat.succ_eq_add_one]
    rw [hdrop, List.range_succ, List.map_append]
    congr 1
    · apply List.map_congr_left
      intro i hi
      rw [List.mem_range] at hi
      have hidx : ((rb.tail + 1) % (m + 1) + i) % (m + 1) =
          (rb.tail + (i + 1)) % (m + 1) := by
        rw [Nat.mod_add_mod]
        congr 1
        omega
      rw [hidx]
      have hne : (rb.tail + (i + 1)) % (m + 1) ≠ rb.head := by
        rw [hht]
        intro heq
        have h0 : (rb.tail + (i + 1)) % (m + 1) = (rb.tail + 0) % (m + 1) := by
          rw [heq, Nat.add_zero, Nat.mod_eq_of_lt htail']
        have h1 : (i + 1) % (m + 1) = 0 % (m + 1) :=
          Nat.ModEq.add_left_cancel' rb.tail h0
        rw [Nat.zero_mod, Nat.mod_eq_of_lt (by omega)] at h1
        omega
      simp only [List.getD_eq_getElem?_getD]
      rw [List.getElem?_set_ne (Ne.symm hne)]
    · simp only [List.map_cons, List.map_nil]
      congr 1
      have hidx : ((rb.tail + 1) % (m + 1) + m) % (m + 1) = rb.head := by
        rw [Nat.mod_add_mod, hht]
        have h2 : rb.tail + 1 + m = rb.tail + (m + 1) := by omega
        rw [h2, Nat.add_mod_right, Nat.mod_eq_of_lt htail']
      rw [hidx]
      simp only [List.getD_eq_getElem?_getD]
      rw [List.getElem?_set_eq_of_lt b hhb]
      rfl
  · simp only [RingBuffer.append1, if_neg hnc, List.length_set]
    exact hlen
  · simp only [RingBuffer.append1, if_neg hnc]
    show (rb.head + 1) % rb.capacity =
      ((rb.tail + 1) % rb.capacity + rb.count) % rb.capacity
    rw [Nat.mod_add_mod, hht, hc, Nat.add_mod_right]
  · simpa only [RingBuffer.append1, if_neg hnc] using hcnt
  · simp only [RingBuffer.append1, if_neg hnc]
    exact Nat.mod_lt _ hpos
  · simpa only [RingBuffer.append1, if_neg hnc] using hpos
  · simp only [RingBuffer.append1, if_neg hnc]

theorem RingBuffer.append1_WF (rb : RingBuffer) (b : Nat) (h : rb.WF) :
    (rb.append1 b).WF := by
  by_cases hc : rb.count < rb.capacity
  · exact (RingBuffer.toList_append1 rb b h hc).2
  · have hceq : rb.count = rb.capacity := by
      obtain ⟨_, _, hcnt, _, _⟩ := h
      omega
    exact (RingBuffer.toList_append1_full rb b h hceq).2.1

theorem RingBuffer.append_WF (rb : RingBuffer) (data : List Nat) (h : rb.WF) :
    (rb.append data).WF ∧ (rb.append data).capacity = rb.capacity := by
  induction data generalizing rb with
  | nil => exact ⟨h, rfl⟩
  | cons b rest ih =>
    have h1 := RingBuffer.append1_WF rb b h
    have h2 := ih (rb.append1 b) h1
    refine ⟨h2.1, ?_⟩
    rw [show rb.append (b :: rest) = (rb.append1 b).append rest from rfl, h2.2,
      RingBuffer.append1_capacity]

theorem RingBuffer.applyOp_WF (rb : RingBuffer) (op : BufOp) (h : rb.WF) :
    (rb.applyOp op).WF ∧ (rb.applyOp op).capacity = rb.capacity := by
  cases op with
  | append data => exact RingBuffer.append_WF rb data h
  | peek n => exact ⟨h, rfl⟩
  | skip n =>
    obtain ⟨_, h2, h3⟩ := RingBuffer.toList_skip rb n h
    exact ⟨h2, h3⟩
  | clear =>
    obtain ⟨_, h2, h3⟩ := RingBuffer.toList_clear rb h
    exact ⟨h2, h3⟩
  | find p => exact ⟨h, rfl⟩

theorem RingBuffer.applyOps_WF (ops : List BufOp) : ∀ rb : RingBuffer, rb.WF →
    (rb.applyOps ops).WF ∧ (rb.applyOps ops).capacity = rb.capacity := by
  induction ops with
  | nil => intro rb h; exact ⟨h, rfl⟩
  | cons op rest ih =>
    intro rb h
    obtain ⟨h1, h2⟩ := RingBuffer.applyOp_WF rb op h
    obtain ⟨h3, h4⟩ := ih (rb.applyOp op) h1
    refine ⟨h3, ?_⟩
    rw [show rb.applyOps (op :: rest) = (rb.applyOp op).applyOps rest from rfl,
      h4, h2]

/-! ## Claim theorems -/

/-- A valid light status frame (room 1, all sub-devices reported off),
used by the C1 artifacts. -/
def frameC1 : List Nat :=
  [0xAA, 0x55, 0x30, 0xBC, 0x00, 0x01, 0x00, 0x0E, 0x01, 0x00,
   0x00, 0x00, 0x00, 0x00, 0x00, 0x00, 0x00, 0x00, 0xFC, 0x0D, 0x0D]

/-- **C1** fails as stated: the valid one-frame stream `frameC1`, split at
the chunk boundary one byte into the frame (first chunk `[0xAA]`), yields
no frames, while feeding it whole yields the frame.  The cause: when
`_split_buf` finds no complete `AA 55` prefix in the buffer it clears the
whole buffer, discarding the buffered half prefix. -/
theorem C1_chunk_boundary_counterexample :
    ValidFraming frameC1 ∧
    ([[0xAA], frameC1.drop 1] : List (List Nat)).flatten =
      ([frameC1] : List (List Nat)).flatten ∧
    (feedMany (RingBuffer.init 4096) [frameC1]).1 = [frameC1] ∧
    (feedMany (RingBuffer.init 4096) [[0xAA], frameC1.drop 1]).1 = [] := by
  exact ⟨by decide, by decide, by decide, by decide⟩

/-- **C1** (amended): framing is chunk-boundary invariant for every valid
byte stream that fits the 4096-byte ring, provided no chunk boundary
falls exactly one byte into a frame (offset ≡ 1 mod 21) — such a boundary
leaves a lone `0xAA` in the buffer, which the no-prefix branch of
`_split_buf` discards.  Under these conditions feeding the stream in
arbitrary chunks and feeding it whole both decode exactly the stream's
frames, in order. -/
theorem C1_framing_chunk_invariance_amended
    (chunks fr : List (List Nat))
    (hfr : ∀ f ∈ fr, ValidFraming f)
    (hcat : chunks.flatten = fr.flatten)
    (hb : ∀ k, ((chunks.take k).flatten).length % 21 ≠ 1)
    (hlen : fr.flatten.length ≤ 4096) :
    (feedMany (RingBuffer.init 4096) chunks).1 = fr ∧
    (feedMany (RingBuffer.init 4096) [fr.flatten]).1 = fr := by
  have hwf := RingBuffer.init_WF 4096 (by norm_num)
  have htl := RingBuffer.toList_init 4096
  constructor
  · exact feedMany_frames chunks fr [] (RingBuffer.init 4096) hwf rfl htl hfr
      (by simp [PACKET_LEN]) (Or.inl rfl) (by simpa using hcat)
      (by intro k; simpa using hb k) hlen
  · refine feedMany_frames [fr.flatten] fr [] (RingBuffer.init 4096) hwf rfl htl
      hfr (by simp [PACKET_LEN]) (Or.inl rfl) (by simp) ?_ hlen
    intro k
    have hfl : fr.flatten.length = 21 * fr.length :=
      flatten_length_21 fr fun f hf => (hfr f hf).1
    cases k with
    | zero => simp
    | succ k =>
      rw [List.take_of_length_le (by simp)]
      simp only [List.length_nil, Nat.zero_add, List.flatten_cons,
        List.flatten_nil, List.append_nil, List.length_append]
      omega

/-- Witness for C1 (amended): the stream `frameC1` split 10 bytes in
(neither boundary is ≡ 1 mod 21) decodes to the same single frame as
feeding it whole. -/
theorem C1_framing_chunk_invariance_witness :
    (feedMany (RingBuffer.init 4096) [frameC1.take 10, frameC1.drop 10]).1 =
      [frameC1] ∧
    (feedMany (RingBuffer.init 4096)
      [([frameC1] : List (List Nat)).flatten]).1 = [frameC1] := by
  exact C1_framing_chunk_invariance_amended [frameC1.take 10, frameC1.drop 10]
    [frameC1]
    (by intro f hf; simp only [List.mem_singleton] at hf; subst hf; decide)
    (by decide)
    (by
      intro k
      match k with
      | 0 => decide
      | 1 => decide
      | n + 2 =>
        rw [List.take_of_length_le (by simp)]
        decide)
    (by decide)

/-- A valid light status frame for the C2 stream (room 1, sub-device 0
on). -/
def frameC2a : List Nat :=
  [0xAA, 0x55, 0x30, 0xBC, 0x00, 0x01, 0x00, 0x0E, 0x01, 0x00,
   0xFF, 0x00, 0x00, 0x00, 0x00, 0x00, 0x00, 0x00, 0xFB, 0x0D, 0x0D]

/-- A suffix-corrupted 21-byte candidate: valid prefix, last byte `0x0E`
instead of `0x0D`. -/
def frameC2bad : List Nat :=
  [0xAA, 0x55, 0x30, 0xBC, 0x00, 0x01, 0x00, 0x0E, 0x02, 0x00,
   0x00, 0x00, 0x00, 0x00, 0x00, 0x00, 0x00, 0x00, 0xFD, 0x0D, 0x0E]

/-- A second valid light status frame (room 2). -/
def frameC2b : List Nat :=
  [0xAA, 0x55, 0x30, 0xBC, 0x00, 0x01, 0x00, 0x0E, 0x02, 0x00,
   0xFF, 0x00, 0x00, 0x00, 0x00, 0x00, 0x00, 0x00, 0xFC, 0x0D, 0x0D]

/-- **C2**: when the buffer starts with the prefix, holds at least 21
bytes, and the 21-byte candidate does not end with the suffix, one
iteration of the `_split_buf` loop goes to the next iteration on the
buffer with exactly one byte dropped; consequently the stream
⟨valid frame⟩⟨suffix-corrupted frame⟩⟨valid frame⟩ yields exactly the two
valid frames, in order. -/
theorem C2_framing_error_single_byte_resync :
    (∀ (rb : RingBuffer) (fuel : Nat), rb.WF → PACKET_LEN ≤ rb.count →
      rb.peek 2 = PACKET_PREFIX →
      PACKET_SUFFIX.isSuffixOf (rb.peek PACKET_LEN) = false →
      splitBufLoop (fuel + 1) rb = splitBufLoop fuel (rb.skip 1) ∧
      (rb.skip 1).toList = rb.toList.drop 1) ∧
    (feedMany (RingBuffer.init 4096)
      [frameC2a ++ frameC2bad ++ frameC2b]).1 = [frameC2a, frameC2b] := by
  constructor
  · intro rb fuel hwf hcnt hpre hsfx
    have htl2 : rb.toList.take 2 = PACKET_PREFIX := by
      rw [← RingBuffer.peek_eq_take]
      exact hpre
    refine ⟨?_, (RingBuffer.toList_skip rb 1 hwf).1⟩
    rw [splitBufLoop]
    rw [if_neg (by simp only [PACKET_LEN] at hcnt; omega)]
    rw [RingBuffer.find_eq_listFind, listFind_self_front _ htl2]
    dsimp only
    rw [if_neg (lt_irrefl 0), if_neg (by omega),
      if_neg (by rw [hsfx]; simp)]
  · decide

/-- Witness for C2: the resync step applied to the buffer holding the
corrupted candidate followed by a valid frame. -/
theorem C2_framing_error_single_byte_resync_witness :
    splitBufLoop 43 ((RingBuffer.init 4096).append (frameC2bad ++ frameC2b)) =
      splitBufLoop 42
        (((RingBuffer.init 4096).append (frameC2bad ++ frameC2b)).skip 1) ∧
    (((RingBuffer.init 4096).append (frameC2bad ++ frameC2b)).skip 1).toList =
      ((RingBuffer.init 4096).append (frameC2bad ++ frameC2b)).toList.drop 1 := by
  exact C2_framing_error_single_byte_resync.1
    ((RingBuffer.init 4096).append (frameC2bad ++ frameC2b)) 42
    (RingBuffer.append_WF (RingBuffer.init 4096) (frameC2bad ++ frameC2b)
      (RingBuffer.init_WF 4096 (by norm_num))).1
    (by decide) (by decide) (by decide)

/-- **C10**: the framing ring buffer is total and bounded: after any
sequence of append/peek/skip/clear/find operations from the controller's
fresh 4096-byte buffer the stored count never exceeds 4096; appending to
a full buffer keeps the count and overwrites the oldest stored byte; and
`peek`/`skip` clamp an oversized length to the stored count (no
exception path exists — all operations are total functions). -/
theorem C10_ringbuffer_total_and_bounded :
    (∀ ops : List BufOp, ((RingBuffer.init 4096).applyOps ops).count ≤ 4096) ∧
    (∀ rb : RingBuffer, rb.WF → rb.count = rb.capacity → ∀ b,
      (rb.append1 b).count = rb.count ∧
      (rb.append1 b).toList = rb.toList.drop 1 ++ [b]) ∧
    (∀ (rb : RingBuffer) (n : Nat), rb.count ≤ n →
      rb.peek n = rb.peek rb.count ∧ rb.skip n = rb.skip rb.count) := by
  refine ⟨?_, ?_, ?_⟩
  · intro ops
    obtain ⟨hwf, hcap⟩ := RingBuffer.applyOps_WF ops (RingBuffer.init 4096)
      (RingBuffer.init_WF 4096 (by norm_num))
    obtain ⟨_, _, hcnt, _, _⟩ := hwf
    rw [hcap] at hcnt
    have hc4 : (RingBuffer.init 4096).capacity = 4096 := rfl
    rw [hc4] at hcnt
    exact hcnt
  · intro rb hwf hfull b
    obtain ⟨h1, _, h3⟩ := RingBuffer.toList_append1_full rb b hwf hfull
    exact ⟨h3, h1⟩
  · intro rb n hn
    constructor
    · simp [RingBuffer.peek, Nat.min_eq_right hn, Nat.min_self]
    · simp [RingBuffer.skip, Nat.min_eq_right hn, Nat.min_self]

theorem alistGet_set_self {α β : Type} [BEq α] [LawfulBEq α]
    (l : List (α × β)) (k : α) (v : β) :
    alistGet (alistSet l k v) k = some v := by
  unfold alistGet alistSet
  by_cases hany : l.any (fun p => p.1 == k) = true
  · rw [if_pos hany, List.find?_map]
    have hcong : l.find?
        ((fun p : α × β => p.1 == k) ∘
          fun p : α × β => if p.1 == k then (k, v) else p) =
        l.find? (fun p : α × β => p.1 == k) := by
      apply find?_congr
      intro x _
      simp only [Function.comp_apply]
      by_cases hx : x.1 == k
      · simp [hx]
      · simp [hx]
    rw [hcong]
    obtain ⟨x, hmem, hx⟩ := List.any_eq_true.mp hany
    cases hfind : l.find? (fun p : α × β => p.1 == k) with
    | none =>
      rw [List.find?_eq_none] at hfind
      exact absurd hx (hfind x hmem)
    | some y =>
      have hy := List.find?_some hfind
      simp only [] at hy
      simp [hy]
  · rw [if_neg hany, List.find?_append]
    have hnone : l.find? (fun p : α × β => p.1 == k) = none := by
      rw [List.find?_eq_none]
      intro x hmem hx
      exact hany (List.any_eq_true.mpr ⟨x, hmem, hx⟩)
    simp [hnone]

theorem alistGet_set_ne {α β : Type} [BEq α] [LawfulBEq α]
    (l : List (α × β)) (k1 k2 : α) (v : β) (h : k1 ≠ k2) :
    alistGet (alistSet l k1 v) k2 = alistGet l k2 := by
  unfold alistGet alistSet
  have hk12 : (k1 == k2) = false := by
    simp [beq_eq_false_iff_ne, h]
  by_cases hany : l.any (fun p => p.1 == k1) = true
  · rw [if_pos hany, List.find?_map]
    have hcong : l.find?
        ((fun p : α × β => p.1 == k2) ∘
          fun p : α × β => if p.1 == k1 then (k1, v) else p) =
        l.find? (fun p : α × β => p.1 == k2) := by
      apply find?_congr
      intro x _
      simp only [Function.comp_apply]
      by_cases hx : x.1 == k1
      · have hxk : x.1 = k1 := by simpa using hx
        simp [hx, hk12, hxk]
      · simp [hx]
    rw [hcong]
    cases hfind : l.find? (fun p : α × β => p.1 == k2) with
    | none => simp
    | some y =>
      have hy := List.find?_some hfind
      simp only [] at hy
      have hyne : (y.1 == k1) = false := by
        have hyk : y.1 = k2 := by simpa using hy
        simp [beq_eq_false_iff_ne, hyk, Ne.symm h]
      simp [hyne]
  · rw [if_neg hany, List.find?_append]
    cases hfind : l.find? (fun p : α × β => p.1 == k2) with
    | none => simp [hfind, hk12]
    | some y => simp [hfind]

theorem onDeviceState_force (gw : GwState) (dev : DeviceState) :
    (onDeviceState gw dev).force_register_uid = gw.force_register_uid := rfl

theorem onDeviceState_get_ne (gw : GwState) (dev : DeviceState)
    (k : Nat × Nat × Nat × Nat) (h : dev.key.key ≠ k) :
    alistGet (onDeviceState gw dev).registry.states k =
      alistGet gw.registry.states k := by
  unfold onDeviceState EntityRegistry.upsert
  dsimp only
  cases halist : alistGet gw.registry.states dev.key.key with
  | none =>
    dsimp only
    by_cases hallow : (if dev.key.device_type = DeviceType.LIGHT ∨
        dev.key.device_type = DeviceType.OUTLET then
      dev.isRegister || (gw.force_register_uid == some dev.key.unique_id)
    else true) = true
    · rw [hallow, if_neg (by simp)]
      exact alistGet_set_ne _ _ _ _ h
    · rw [Bool.not_eq_true] at hallow
      rw [hallow, if_pos (by simp)]
  | some old =>
    dsimp only
    split
    · exact alistGet_set_ne _ _ _ _ h
    · rfl

theorem foldl_onDeviceState_get_ne (devs : List DeviceState) :
    ∀ (gw : GwState) (k : Nat × Nat × Nat × Nat),
    (∀ d ∈ devs, d.key.key ≠ k) →
    alistGet ((devs.foldl onDeviceState gw).registry.states) k =
      alistGet gw.registry.states k := by
  induction devs with
  | nil => intro gw k _; rfl
  | cons d rest ih =>
    intro gw k hne
    rw [List.foldl_cons, ih (onDeviceState gw d) k fun x hx => hne x (by simp [hx]),
      onDeviceState_get_ne gw d k (hne d (by simp))]

theorem foldl_onDeviceState_force (devs : List DeviceState) :
    ∀ gw : GwState,
    ((devs.foldl onDeviceState gw).force_register_uid) = gw.force_register_uid := by
  induction devs with
  | nil => intro gw; rfl
  | cons d rest ih =>
    intro gw
    rw [List.foldl_cons, ih (onDeviceState gw d), onDeviceState_force]

theorem onDeviceState_insert_allowed (gw : GwState) (dev : DeviceState)
    (hreg : dev.isRegister = true) :
    ∃ d, alistGet (onDeviceState gw dev).registry.states dev.key.key = some d ∧
      d.state = dev.state := by
  unfold onDeviceState EntityRegistry.upsert
  dsimp only
  cases halist : alistGet gw.registry.states dev.key.key with
  | none =>
    dsimp only
    have hallow : (if dev.key.device_type = DeviceType.LIGHT ∨
        dev.key.device_type = DeviceType.OUTLET then
      dev.isRegister || (gw.force_register_uid == some dev.key.unique_id)
    else true) = true := by
      split
      · rw [hreg]
        simp
      · rfl
    rw [hallow, if_neg (by simp)]
    exact ⟨dev, alistGet_set_self _ _ _, rfl⟩
  | some old =>
    dsimp only
    split
    · exact ⟨dev, alistGet_set_self _ _ _, rfl⟩
    · rename_i hnc
      push_neg at hnc
      exact ⟨old, halist, hnc.2.1⟩

theorem onDeviceState_no_insert (gw : GwState) (dev : DeviceState)
    (hreg : dev.isRegister = false)
    (hld : dev.key.device_type = DeviceType.LIGHT ∨
      dev.key.device_type = DeviceType.OUTLET)
    (hforce : gw.force_register_uid = none)
    (habsent : alistGet gw.registry.states dev.key.key = none) :
    alistGet (onDeviceState gw dev).registry.states dev.key.key = none := by
  unfold onDeviceState EntityRegistry.upsert
  dsimp only
  rw [habsent]
  dsimp only
  have hallow : (if dev.key.device_type = DeviceType.LIGHT ∨
      dev.key.device_type = DeviceType.OUTLET then
    dev.isRegister || (gw.force_register_uid == some dev.key.unique_id)
  else true) = false := by
    rw [if_pos hld, hreg, hforce]
    rfl
  rw [hallow, if_pos (by simp)]
  exact habsent

theorem onDeviceState_update_present (gw : GwState) (dev : DeviceState)
    (old : DeviceState)
    (hpresent : alistGet gw.registry.states dev.key.key = some old) :
    ∃ d, alistGet (onDeviceState gw dev).registry.states dev.key.key = some d ∧
      d.state = dev.state := by
  unfold onDeviceState EntityRegistry.upsert
  dsimp only
  rw [hpresent]
  dsimp only
  split
  · exact ⟨dev, alistGet_set_self _ _ _, rfl⟩
  · rename_i hnc
    push_neg at hnc
    exact ⟨old, hpresent, hnc.2.1⟩

/-- A 21-byte candidate with valid prefix and suffix but checksum byte
`0x00` where the body sums to `0xFB`. -/
def frameC3bad : List Nat :=
  [0xAA, 0x55, 0x30, 0xBC, 0x00, 0x01, 0x00, 0x0E, 0x01, 0x00,
   0xFF, 0x00, 0x00, 0x00, 0x00, 0x00, 0x00, 0x00, 0x00, 0x0D, 0x0D]

/-- **C3**: a 21-byte candidate with valid prefix and suffix whose
checksum byte (index 18) differs from the sum of bytes 2..17 mod 256 is
dropped by `_dispatch_packet` with no device state emitted and no
gateway-state change; and a stream beginning with such a frame decodes
exactly as the stream without it (same emissions, same final gateway
state). -/
theorem C3_checksum_rejection :
    (∀ (gw : GwState) (packet : List Nat),
      packet.length = PACKET_LEN →
      packet.take 2 = PACKET_PREFIX →
      PACKET_SUFFIX.isSuffixOf packet = true →
      checksum ((packet.drop 2).take 16) ≠ (PacketFrame.mk packet).checksum →
      dispatchPacket gw packet = (gw, [])) ∧
    ((processChunk GwState.init (RingBuffer.init 4096)
        (frameC3bad ++ frameC2b)).1 =
      (processChunk GwState.init (RingBuffer.init 4096) frameC2b).1 ∧
     (processChunk GwState.init (RingBuffer.init 4096)
        (frameC3bad ++ frameC2b)).2.2 =
      (processChunk GwState.init (RingBuffer.init 4096) frameC2b).2.2) := by
  constructor
  · intro gw packet _ _ _ hbad
    unfold dispatchPacket
    rw [if_pos hbad]
  · exact ⟨by decide, by decide⟩

/-- Witness for C3: the corrupted frame is dispatched to no effect. -/
theorem C3_checksum_rejection_witness :
    dispatchPacket GwState.init frameC3bad = (GwState.init, []) := by
  exact C3_checksum_rejection.1 GwState.init frameC3bad (by decide) (by decide)
    (by decide) (by decide)

/-- **C4**: for a decoded light/outlet status frame (command `0x00`) and
any sub-device index `idx < 8`: the decoded sub-state is on exactly when
the payload byte is `0xFF`; after routing all eight sub-states through
`on_device_state` (with no restore-forced uid), a `0xFF` byte leaves the
registry with an on entry for that identity (created if absent), a
`0x00` byte for an identity absent from the registry creates no entry,
and a `0x00` byte for a present identity leaves the entry with state
off. -/
theorem C4_switch_zero_byte_registration
    (frame : PacketFrame) (gw : GwState) (idx : Nat)
    (hcmd : frame.command = 0)
    (hdt : frame.dev_type = DeviceType.LIGHT ∨
      frame.dev_type = DeviceType.OUTLET)
    (hidx : idx < 8)
    (hforce : gw.force_register_uid = none) :
    ((handleSwitch frame)[idx]?.map DeviceState.state) =
      some (.b (frame.payloadByte idx == 0xFF)) ∧
    (frame.payloadByte idx = 0xFF →
      ∃ d, alistGet ((handleSwitch frame).foldl onDeviceState gw).registry.states
          (DeviceKey.mk frame.dev_type frame.dev_room idx SubType.NONE).key =
          some d ∧ d.state = .b true) ∧
    (frame.payloadByte idx = 0x00 →
      alistGet gw.registry.states
        (DeviceKey.mk frame.dev_type frame.dev_room idx SubType.NONE).key = none →
      alistGet ((handleSwitch frame).foldl onDeviceState gw).registry.states
        (DeviceKey.mk frame.dev_type frame.dev_room idx SubType.NONE).key = none) ∧
    (frame.payloadByte idx = 0x00 → ∀ old,
      alistGet gw.registry.states
        (DeviceKey.mk frame.dev_type frame.dev_room idx SubType.NONE).key =
        some old →
      ∃ d, alistGet ((handleSwitch frame).foldl onDeviceState gw).registry.states
          (DeviceKey.mk frame.dev_type frame.dev_room idx SubType.NONE).key =
          some d ∧ d.state = .b false) := by
  have hsw : handleSwitch frame = (List.range 8).map fun j =>
      { key := ⟨frame.dev_type, frame.dev_room, j, SubType.NONE⟩,
        platform := if frame.dev_type = DeviceType.LIGHT then Platform.LIGHT
          else Platform.SWITCH,
        attr := if (if frame.dev_type = DeviceType.LIGHT then Platform.LIGHT
            else Platform.SWITCH) = Platform.SWITCH then
            [("device_class", AttrVal.s "outlet")] else [],
        state := .b (frame.payloadByte j == 0xFF),
        isRegister := (frame.payloadByte j == 0xFF) } := by
    unfold handleSwitch
    rw [if_pos hcmd]
  set key : DeviceKey := ⟨frame.dev_type, frame.dev_room, idx, SubType.NONE⟩
    with hkeydef
  set devs := handleSwitch frame with hdevsdef
  have hlen8 : devs.length = 8 := by rw [hsw]; simp
  have hget : devs[idx]? = some
      { key := key,
        platform := if frame.dev_type = DeviceType.LIGHT then Platform.LIGHT
          else Platform.SWITCH,
        attr := if (if frame.dev_type = DeviceType.LIGHT then Platform.LIGHT
            else Platform.SWITCH) = Platform.SWITCH then
            [("device_class", AttrVal.s "outlet")] else [],
        state := .b (frame.payloadByte idx == 0xFF),
        isRegister := (frame.payloadByte idx == 0xFF) } := by
    rw [hsw]
    simp [List.getElem?_map, List.getElem?_range, hidx, hkeydef]
  have hkeyne : ∀ j, j ≠ idx →
      (DeviceKey.mk frame.dev_type frame.dev_room j SubType.NONE).key ≠
        key.key := by
    intro j hj
    rw [hkeydef]
    intro hcontra
    apply hj
    simpa [DeviceKey.key] using
      congrArg (fun t : Nat × Nat × Nat × Nat => t.2.2.1) hcontra
  have hpre : ∀ d ∈ devs.take idx, d.key.key ≠ key.key := by
    intro d hd
    rw [hsw, ← List.map_take, List.take_range,
      Nat.min_eq_left (by omega)] at hd
    obtain ⟨j, hj, rfl⟩ := List.mem_map.mp hd
    rw [List.mem_range] at hj
    exact hkeyne j (by omega)
  have hpost : ∀ d ∈ devs.drop (idx + 1), d.key.key ≠ key.key := by
    intro d hd
    rw [hsw, ← List.map_drop] at hd
    obtain ⟨j, hj, rfl⟩ := List.mem_map.mp hd
    have hsplit : (8 : Nat) = (idx + 1) + (8 - (idx + 1)) := by omega
    rw [hsplit, List.range_add, List.drop_left' (by simp)] at hj
    obtain ⟨i, _, rfl⟩ := List.mem_map.mp hj
    exact hkeyne _ (by omega)
  have hdec : devs = devs.take idx ++
      ({ key := key,
         platform := if frame.dev_type = DeviceType.LIGHT then Platform.LIGHT
           else Platform.SWITCH,
         attr := if (if frame.dev_type = DeviceType.LIGHT then Platform.LIGHT
             else Platform.SWITCH) = Platform.SWITCH then
             [("device_class", AttrVal.s "outlet")] else [],
         state := .b (frame.payloadByte idx == 0xFF),
         isRegister := (frame.payloadByte idx == 0xFF) } : DeviceState) ::
        devs.drop (idx + 1) := by
    conv_lhs => rw [← List.take_append_drop idx devs]
    congr 1
    rw [List.drop_eq_getElem_cons (by omega)]
    congr 1
    have := hget
    rw [List.getElem?_eq_getElem (by omega)] at this
    exact Option.some.inj this
  set dIdx : DeviceState :=
      { key := key,
        platform := if frame.dev_type = DeviceType.LIGHT then Platform.LIGHT
          else Platform.SWITCH,
        attr := if (if frame.dev_type = DeviceType.LIGHT then Platform.LIGHT
            else Platform.SWITCH) = Platform.SWITCH then
            [("device_class", AttrVal.s "outlet")] else [],
        state := .b (frame.payloadByte idx == 0xFF),
        isRegister := (frame.payloadByte idx == 0xFF) } with hdIdxdef
  have hfold : devs.foldl onDeviceState gw =
      (devs.drop (idx + 1)).foldl onDeviceState
        (onDeviceState ((devs.take idx).foldl onDeviceState gw) dIdx) := by
    conv_lhs => rw [hdec]
    rw [List.foldl_append, List.foldl_cons]
  set gw1 := (devs.take idx).foldl onDeviceState gw with hgw1def
  have hgw1get : alistGet gw1.registry.states key.key =
      alistGet gw.registry.states key.key :=
    foldl_onDeviceState_get_ne (devs.take idx) gw key.key hpre
  have hgw1force : gw1.force_register_uid = none := by
    rw [hgw1def, foldl_onDeviceState_force, hforce]
  have hpostget : ∀ g : GwState,
      alistGet (((devs.drop (idx + 1)).foldl onDeviceState g).registry.states)
        key.key = alistGet g.registry.states key.key :=
    fun g => foldl_onDeviceState_get_ne (devs.drop (idx + 1)) g key.key hpost
  refine ⟨?_, ?_, ?_, ?_⟩
  · rw [hget]
    rfl
  · intro hff
    have hreg : dIdx.isRegister = true := by
      rw [hdIdxdef]
      simp [hff]
    obtain ⟨d, hd1, hd2⟩ := onDeviceState_insert_allowed gw1 dIdx hreg
    refine ⟨d, ?_, ?_⟩
    · rw [hfold, hpostget]
      exact hd1
    · rw [hd2, hdIdxdef]
      simp [hff]
  · intro h00 habsent
    have hreg : dIdx.isRegister = false := by
      rw [hdIdxdef]
      simp [h00]
    have hld : dIdx.key.device_type = DeviceType.LIGHT ∨
        dIdx.key.device_type = DeviceType.OUTLET := by
      rw [hdIdxdef, hkeydef]
      exact hdt
    rw [hfold, hpostget]
    exact onDeviceState_no_insert gw1 dIdx hreg hld hgw1force
      (by rw [hgw1get]; exact habsent)
  · intro h00 old hpresent
    obtain ⟨d, hd1, hd2⟩ := onDeviceState_update_present gw1 dIdx old
      (by rw [hgw1get]; exact hpresent)
    refine ⟨d, ?_, ?_⟩
    · rw [hfold, hpostget]
      exact hd1
    · rw [hd2, hdIdxdef]
      simp [h00]

/-- A light status frame for the C4 witness: room 1, sub-device 0 on,
others off. -/
def frameC4 : PacketFrame := PacketFrame.mk
  [0xAA, 0x55, 0x30, 0xBC, 0x00, 0x01, 0x00, 0x0E, 0x01, 0x00,
   0xFF, 0x00, 0x00, 0x00, 0x00, 0x00, 0x00, 0x00, 0xFB, 0x0D, 0x0D]

/-- The pre-registered on-state of light 1/1 for the C4 witness. -/
def devC4old : DeviceState :=
  ⟨⟨DeviceType.LIGHT, 1, 1, SubType.NONE⟩, Platform.LIGHT, [],
   StateVal.b true, true⟩

/-- A gateway whose registry already holds light 1/1 in the on state. -/
def gwC4 : GwState :=
  ⟨⟨[((DeviceKey.mk DeviceType.LIGHT 1 1 SubType.NONE).key, devC4old)],
    [], []⟩, [], none⟩

/-- Witness for C4: the `0xFF` byte registers sub-device 0 as on from an
empty registry; the `0x00` byte for never-seen sub-device 1 creates no
entry; the `0x00` byte for already-registered sub-device 1 turns its
entry off. -/
theorem C4_switch_zero_byte_registration_witness :
    (∃ d, alistGet ((handleSwitch frameC4).foldl onDeviceState
        GwState.init).registry.states
        (DeviceKey.mk DeviceType.LIGHT 1 0 SubType.NONE).key = some d ∧
      d.state = .b true) ∧
    alistGet ((handleSwitch frameC4).foldl onDeviceState
        GwState.init).registry.states
      (DeviceKey.mk DeviceType.LIGHT 1 1 SubType.NONE).key = none ∧
    (∃ d, alistGet ((handleSwitch frameC4).foldl onDeviceState
        gwC4).registry.states
        (DeviceKey.mk DeviceType.LIGHT 1 1 SubType.NONE).key = some d ∧
      d.state = .b false) := by
  have h0 := C4_switch_zero_byte_registration frameC4 GwState.init 0
    (by decide) (by decide) (by decide) rfl
  have h1 := C4_switch_zero_byte_registration frameC4 GwState.init 1
    (by decide) (by decide) (by decide) rfl
  have h2 := C4_switch_zero_byte_registration frameC4 gwC4 1
    (by decide) (by decide) (by decide) rfl
  exact ⟨h0.2.1 (by decide), h1.2.2.1 (by decide) (by decide),
    h2.2.2.2 (by decide) devC4old (by decide)⟩

theorem foldl_set_getD (w : Nat → Nat) (js : List Nat) :
    ∀ (data : List Nat) (idx : Nat), idx < data.length →
    ((js.foldl (fun d j => d.set j (w j)) data).getD idx 0) =
      if idx ∈ js then w idx else data.getD idx 0 := by
  induction js with
  | nil =>
    intro data idx _
    simp
  | cons j rest ih =>
    intro data idx hlen
    rw [List.foldl_cons, ih (data.set j (w j)) idx (by simpa using hlen)]
    by_cases hmem : idx ∈ rest
    · simp [hmem]
    · by_cases hj : idx = j
      · subst hj
        simp only [hmem, if_false, List.mem_cons, true_or, if_true]
        simp only [List.getD_eq_getElem?_getD]
        rw [List.getElem?_set_eq_of_lt (w idx) hlen]
        rfl
      · have : ¬ idx ∈ j :: rest := by simp [hj, hmem]
        simp only [hmem, if_false, this, if_false]
        simp only [List.getD_eq_getElem?_getD]
        rw [List.getElem?_set_ne (Ne.symm hj)]

/-- The C5 scenario key: light, room 1, sub-device 3. -/
def keyC5 : DeviceKey := ⟨DeviceType.LIGHT, 1, 3, SubType.NONE⟩

/-- The C5 scenario registry: sub-device 3 known off (a promoted state),
sub-device 5 known on but only in the shadow store, others unknown. -/
def regC5 : EntityRegistry :=
  ⟨[((DeviceKey.mk DeviceType.LIGHT 1 3 SubType.NONE).key,
     ⟨⟨DeviceType.LIGHT, 1, 3, SubType.NONE⟩, Platform.LIGHT, [],
      StateVal.b false, true⟩)],
   [((DeviceKey.mk DeviceType.LIGHT 1 5 SubType.NONE).key,
     ⟨⟨DeviceType.LIGHT, 1, 5, SubType.NONE⟩, Platform.LIGHT, [],
      StateVal.b true, true⟩)], []⟩

/-- **C5**: encoding `turn_on` for one light/outlet sub-device
reconstructs the full 8-byte payload from the registry with shadow
values included: every other index holds `0xFF` exactly when the
registry (states first, then shadow) holds the boolean `True` for that
sub-device, and the target index holds `0xFF`; in the scenario
{sub-device 3 known off, sub-device 5 known on (shadow), others unknown}
encoding `turn_on` for sub-device 3 yields payload
`[00 00 00 FF 00 FF 00 00]`. -/
theorem C5_generate_switch_non_clobber
    (reg : EntityRegistry) (key : DeviceKey) (idx : Nat) (hidx : idx < 8) :
    ((generate_switch reg key "turn_on" (List.replicate 8 0)).getD idx 0 =
      if idx = key.device_index then 0xFF
      else match reg.get { key with device_index := idx } true with
        | some dev => if dev.state == StateVal.b true then 0xFF else 0x00
        | none => 0x00) ∧
    generate_switch regC5 keyC5 "turn_on" (List.replicate 8 0) =
      [0x00, 0x00, 0x00, 0xFF, 0x00, 0xFF, 0x00, 0x00] := by
  constructor
  · unfold generate_switch
    rw [if_neg (by decide)]
    have hfeq : (fun (d : List Nat) (i : Nat) =>
        let new_key := { key with device_index := i }
        let st := reg.get new_key true
        if i ≠ key.device_index then
          let bit : Nat := match st with
            | some dev => if dev.state == StateVal.b true then 0xFF else 0x00
            | none => 0x00
          d.set i bit
        else
          d.set i (if "turn_on" = "turn_on" then 0xFF else 0x00)) =
        fun (d : List Nat) (i : Nat) => d.set i
          (if i = key.device_index then 0xFF
           else match reg.get { key with device_index := i } true with
             | some dev => if dev.state == StateVal.b true then 0xFF else 0x00
             | none => 0x00) := by
      funext d i
      dsimp only
      by_cases hi : i = key.device_index
      · rw [if_neg (by simp [hi]), if_pos hi, if_pos rfl]
      · rw [if_pos hi, if_neg hi]
    rw [hfeq, foldl_set_getD _ (List.range 8) (List.replicate 8 0) idx (by simpa using hidx)]
    rw [if_pos (List.mem_range.mpr hidx)]
  · decide

/-- Witness for C5: index 5 of the rebuilt payload follows the shadow
entry of sub-device 5. -/
theorem C5_generate_switch_non_clobber_witness :
    (generate_switch regC5 keyC5 "turn_on" (List.replicate 8 0)).getD 5 0 =
      if 5 = keyC5.device_index then 0xFF
      else match regC5.get { keyC5 with device_index := 5 } true with
        | some dev => if dev.state == StateVal.b true then 0xFF else 0x00
        | none => 0x00 := by
  exact (C5_generate_switch_non_clobber regC5 keyC5 5 (by decide)).1

theorem matchKeyAnd_key (key : DeviceKey) (c : DeviceState → Bool)
    (dev : DeviceState) (h : matchKeyAnd key c dev = true) :
    dev.key.key = key.key := by
  unfold matchKeyAnd at h
  by_cases hk : dev.key.key ≠ key.key
  · rw [if_pos hk] at h
    exact absurd h (by simp)
  · push_neg at hk
    exact hk

theorem matchKeyAnd_eq (key : DeviceKey) (c : DeviceState → Bool)
    (dev : DeviceState) (h : dev.key.key = key.key) :
    matchKeyAnd key c dev = c dev := by
  unfold matchKeyAnd
  rw [if_neg (by simp [h])]

theorem matchKeyAnd_ne (key : DeviceKey) (c : DeviceState → Bool)
    (dev : DeviceState) (h : dev.key.key ≠ key.key) :
    matchKeyAnd key c dev = false := by
  unfold matchKeyAnd
  rw [if_pos h]

theorem waiterAccepts_pred (f : DeviceState → Bool) (dev : DeviceState) :
    waiterAccepts (.pred f) dev = f dev := rfl

theorem waiterAccepts_lit (b : Bool) (dev : DeviceState) :
    waiterAccepts (.lit b) dev = false := rfl

theorem expectForSwitchLike_scoped (key : DeviceKey) (action : String)
    (dev : DeviceState)
    (h : waiterAccepts (expectForSwitchLike key action).1 dev = true) :
    dev.key.key = key.key := by
  unfold expectForSwitchLike at h
  split_ifs at h <;>
    (dsimp only at h; rw [waiterAccepts_pred] at h;
     exact matchKeyAnd_key _ _ _ h)

theorem expectForVentilation_scoped (key : DeviceKey) (action : String)
    (kwargs : Kwargs) (dev : DeviceState)
    (h : waiterAccepts (expectForVentilation key action kwargs).1 dev = true) :
    dev.key.key = key.key := by
  unfold expectForVentilation at h
  split_ifs at h <;>
    (dsimp only at h; rw [waiterAccepts_pred] at h;
     exact matchKeyAnd_key _ _ _ h)

theorem expectForGasvalve_scoped (key : DeviceKey) (action : String)
    (dev : DeviceState)
    (h : waiterAccepts (expectForGasvalve key action).1 dev = true) :
    dev.key.key = key.key := by
  unfold expectForGasvalve at h
  dsimp only at h
  split_ifs at h
  · rw [waiterAccepts_lit] at h
    exact absurd h (by simp)
  · rw [waiterAccepts_pred] at h
    exact matchKeyAnd_key _ _ _ h
  · rw [waiterAccepts_pred] at h
    exact matchKeyAnd_key _ _ _ h

theorem expectForThermostat_scoped (key : DeviceKey) (action : String)
    (kwargs : Kwargs) (dev : DeviceState)
    (h : waiterAccepts (expectForThermostat key action kwargs).1 dev = true) :
    dev.key.key = key.key := by
  unfold expectForThermostat at h
  split_ifs at h <;>
    (dsimp only at h; rw [waiterAccepts_pred] at h;
     exact matchKeyAnd_key _ _ _ h)

theorem expectForAirconditioner_scoped (key : DeviceKey) (action : String)
    (kwargs : Kwargs) (dev : DeviceState)
    (h : waiterAccepts (expectForAirconditioner key action kwargs).1 dev = true) :
    dev.key.key = key.key := by
  unfold expectForAirconditioner at h
  split_ifs at h <;>
    (dsimp only at h; rw [waiterAccepts_pred] at h;
     exact matchKeyAnd_key _ _ _ h)

theorem expectForSwitchLike_offpred (key : DeviceKey) :
    (expectForSwitchLike key "turn_off").1 =
      .pred (matchKeyAnd key fun d => pyBool d.state == false) := by
  unfold expectForSwitchLike
  rw [if_neg (by decide), if_pos rfl]

/-- **C6**: every confirmation value produced by `build_expectation` is
scoped to exact identity first: under `_notify_pendings`' evaluation a
decoded state is accepted only when its identity equals the commanded
identity (the bare `True` that `_expect_for_gasvalve` returns for
`turn_on` is not callable, so it accepts nothing).  For a pending
`turn_off`: a report for a different identity never resolves it; a
matching report carrying the on value does not resolve it; a matching
report carrying the off value resolves it — the boolean state for the
switch-like and gasvalve families, the dict `"state"` field for the
ventilation/thermostat/air-conditioner families. -/
theorem C6_confirmation_identity_scoped :
    (∀ (key : DeviceKey) (action : String) (kwargs : Kwargs)
      (dev : DeviceState),
      waiterAccepts (build_expectation key action kwargs).1 dev = true →
      dev.key.key = key.key) ∧
    (∀ (key : DeviceKey) (kwargs : Kwargs) (dev : DeviceState),
      dev.key.key ≠ key.key →
      waiterAccepts (build_expectation key "turn_off" kwargs).1 dev = false) ∧
    (∀ (key : DeviceKey) (kwargs : Kwargs) (dev : DeviceState),
      dev.key.key = key.key →
      (key.device_type = DeviceType.LIGHT ∨
       key.device_type = DeviceType.LIGHTCUTOFF ∨
       key.device_type = DeviceType.OUTLET ∨
       key.device_type = DeviceType.ELEVATOR ∨
       key.device_type = DeviceType.GASVALVE) →
      (dev.state = .b false →
        waiterAccepts (build_expectation key "turn_off" kwargs).1 dev = true) ∧
      (dev.state = .b true →
        waiterAccepts (build_expectation key "turn_off" kwargs).1 dev = false)) ∧
    (∀ (key : DeviceKey) (kwargs : Kwargs) (dev : DeviceState)
      (d : List (String × SVal)),
      dev.key.key = key.key →
      (key.device_type = DeviceType.VENTILATION ∨
       key.device_type = DeviceType.THERMOSTAT ∨
       key.device_type = DeviceType.AIRCONDITIONER) →
      dev.state = .dict d →
      (alistGet d "state" = some (.b false) →
        waiterAccepts (build_expectation key "turn_off" kwargs).1 dev = true) ∧
      (alistGet d "state" = some (.b true) →
        waiterAccepts (build_expectation key "turn_off" kwargs).1 dev = false)) := by
  refine ⟨?_, ?_, ?_, ?_⟩
  · intro key action kwargs dev h
    unfold build_expectation at h
    split_ifs at h
    · dsimp only at h
      rw [waiterAccepts_pred] at h
      exact of_decide_eq_true h
    · exact expectForSwitchLike_scoped _ _ _ h
    · exact expectForVentilation_scoped _ _ _ _ h
    · exact expectForGasvalve_scoped _ _ _ h
    · exact expectForThermostat_scoped _ _ _ _ h
    · exact expectForAirconditioner_scoped _ _ _ _ h
    · dsimp only at h
      rw [waiterAccepts_pred] at h
      exact matchKeyAnd_key _ _ _ h
  · intro key kwargs dev hne
    unfold build_expectation
    split_ifs with hq h1 h2 h3 h4 h5
    · exact absurd hq (by decide)
    · unfold expectForSwitchLike
      split_ifs <;>
        (dsimp only; rw [waiterAccepts_pred]; exact matchKeyAnd_ne _ _ _ hne)
    · unfold expectForVentilation
      split_ifs <;>
        (dsimp only; rw [waiterAccepts_pred]; exact matchKeyAnd_ne _ _ _ hne)
    · unfold expectForGasvalve
      dsimp only
      split_ifs
      · rw [waiterAccepts_lit]
      · rw [waiterAccepts_pred]
        exact matchKeyAnd_ne _ _ _ hne
      · rw [waiterAccepts_pred]
        exact matchKeyAnd_ne _ _ _ hne
    · unfold expectForThermostat
      split_ifs <;>
        (dsimp only; rw [waiterAccepts_pred]; exact matchKeyAnd_ne _ _ _ hne)
    · unfold expectForAirconditioner
      split_ifs <;>
        (dsimp only; rw [waiterAccepts_pred]; exact matchKeyAnd_ne _ _ _ hne)
    · dsimp only
      rw [waiterAccepts_pred]
      exact matchKeyAnd_ne _ _ _ hne
  · intro key kwargs dev hk hdt
    have hoff : (build_expectation key "turn_off" kwargs).1 =
        .pred (matchKeyAnd key fun d => pyBool d.state == false) := by
      rcases hdt with h | h | h | h | h
      all_goals (unfold build_expectation)
      · rw [if_neg (by decide), if_pos (Or.inl h)]
        exact expectForSwitchLike_offpred key
      · rw [if_neg (by decide), if_pos (Or.inr (Or.inl h))]
        exact expectForSwitchLike_offpred key
      · rw [if_neg (by decide), if_pos (Or.inr (Or.inr (Or.inl h)))]
        exact expectForSwitchLike_offpred key
      · rw [if_neg (by decide), if_pos (Or.inr (Or.inr (Or.inr h)))]
        exact expectForSwitchLike_offpred key
      · rw [h]
        rw [if_neg (by decide), if_neg (by decide), if_neg (by decide),
          if_pos rfl]
        unfold expectForGasvalve
        dsimp only
        rw [if_neg (by decide), if_pos rfl]
    rw [hoff]
    constructor <;> intro hs
    · rw [waiterAccepts_pred, matchKeyAnd_eq _ _ _ hk, hs]
      rfl
    · rw [waiterAccepts_pred, matchKeyAnd_eq _ _ _ hk, hs]
      rfl
  · intro key kwargs dev d hk hdt hdict
    have hoff : (build_expectation key "turn_off" kwargs).1 =
        .pred (matchKeyAnd key fun dv =>
          dv.state.isDict && (dv.state.dget "state" == some (.b false))) := by
      rcases hdt with h | h | h
      all_goals (unfold build_expectation; rw [h])
      · rw [if_neg (by decide), if_neg (by decide), if_pos rfl]
        unfold expectForVentilation
        rw [if_neg (by decide), if_pos rfl]
      · rw [if_neg (by decide), if_neg (by decide), if_neg (by decide),
          if_neg (by decide), if_pos rfl]
        unfold expectForThermostat
        rw [if_neg (by decide), if_neg (by decide), if_neg (by decide),
          if_neg (by decide), if_pos rfl]
      · rw [if_neg (by decide), if_neg (by decide), if_neg (by decide),
          if_neg (by decide), if_neg (by decide), if_pos rfl]
        unfold expectForAirconditioner
        rw [if_neg (by decide), if_neg (by decide), if_neg (by decide),
          if_neg (by decide), if_neg (by decide), if_pos rfl]
    rw [hoff]
    constructor <;> intro hs
    · rw [waiterAccepts_pred, matchKeyAnd_eq _ _ _ hk]
      simp [hdict, StateVal.isDict, StateVal.dget, hs]
    · rw [waiterAccepts_pred, matchKeyAnd_eq _ _ _ hk]
      simp [hdict, StateVal.isDict, StateVal.dget, hs]

/-- Witness for C6 at concrete inputs: an off report for the commanded
light resolves a pending `turn_off`, an on report or a report for a
different light does not, and nothing at all resolves the gasvalve
`turn_on` boolean. -/
theorem C6_confirmation_identity_scoped_witness :
    (waiterAccepts (build_expectation
        ⟨DeviceType.LIGHT, 1, 3, SubType.NONE⟩ "turn_off" {}).1
      ⟨⟨DeviceType.LIGHT, 1, 3, SubType.NONE⟩, Platform.LIGHT, [],
       StateVal.b false, true⟩ = true) ∧
    (waiterAccepts (build_expectation
        ⟨DeviceType.LIGHT, 1, 3, SubType.NONE⟩ "turn_off" {}).1
      ⟨⟨DeviceType.LIGHT, 1, 3, SubType.NONE⟩, Platform.LIGHT, [],
       StateVal.b true, true⟩ = false) ∧
    (waiterAccepts (build_expectation
        ⟨DeviceType.LIGHT, 1, 3, SubType.NONE⟩ "turn_off" {}).1
      ⟨⟨DeviceType.LIGHT, 1, 4, SubType.NONE⟩, Platform.LIGHT, [],
       StateVal.b false, true⟩ = false) := by
  have h := C6_confirmation_identity_scoped
  refine ⟨?_, ?_, ?_⟩
  · exact (h.2.2.1 ⟨DeviceType.LIGHT, 1, 3, SubType.NONE⟩ {}
      ⟨⟨DeviceType.LIGHT, 1, 3, SubType.NONE⟩, Platform.LIGHT, [],
       StateVal.b false, true⟩ (by decide) (Or.inl rfl)).1 rfl
  · exact (h.2.2.1 ⟨DeviceType.LIGHT, 1, 3, SubType.NONE⟩ {}
      ⟨⟨DeviceType.LIGHT, 1, 3, SubType.NONE⟩, Platform.LIGHT, [],
       StateVal.b true, true⟩ (by decide) (Or.inl rfl)).2 rfl
  · exact h.2.1 ⟨DeviceType.LIGHT, 1, 3, SubType.NONE⟩ {}
      ⟨⟨DeviceType.LIGHT, 1, 4, SubType.NONE⟩, Platform.LIGHT, [],
       StateVal.b false, true⟩ (by decide)

theorem pyMod1_natCast (n : Nat) : pyMod1 (n : ℚ) = 0 := by
  unfold pyMod1
  have h : Rat.floor ((n : ℚ)) = ⌊(n : ℚ)⌋ := rfl
  rw [h, Int.floor_natCast]
  push_cast
  ring

theorem storage_get_set_ne (st : Storage) (k1 k2 : StoreKey) (v : StoreVal)
    (h : k1 ≠ k2) : (st.set k1 v).get k2 = st.get k2 :=
  alistGet_set_ne st k1 k2 v h

theorem foldl_onDeviceState_storage (devs : List DeviceState) (gw : GwState) :
    (devs.foldl onDeviceState gw).storage = gw.storage := by
  induction devs generalizing gw with
  | nil => rfl
  | cons d ds ih =>
    rw [List.foldl_cons, ih]
    rfl

/-- `_handle_thermostat` never writes the `_thermo_step` storage key: the
learning guard compares `float(payload[2]) % 1` — always `0.0` for a byte
— against `0.5`. -/
theorem handleThermostat_step_unchanged (frame : PacketFrame)
    (storage : Storage) (u : String) :
    ((handleThermostat frame storage).2).get (StoreKey.thermoStep u) =
      storage.get (StoreKey.thermoStep u) := by
  unfold handleThermostat
  dsimp only
  have h0 : ((0 : ℚ) = 1/2) = False := eq_false (by norm_num)
  simp only [pyMod1_natCast, h0, false_and, if_false]
  split_ifs <;> dsimp only <;>
    (first
      | rw [storage_get_set_ne _ _ _ _ (fun hx => StoreKey.noConfusion hx),
          storage_get_set_ne _ _ _ _ (fun hx => StoreKey.noConfusion hx)]
      | rw [storage_get_set_ne _ _ _ _ (fun hx => StoreKey.noConfusion hx)]
      | rfl)

theorem handleVentilation_step_unchanged (frame : PacketFrame)
    (storage : Storage) (u : String) :
    ((handleVentilation frame storage).2).get (StoreKey.thermoStep u) =
      storage.get (StoreKey.thermoStep u) := by
  unfold handleVentilation
  dsimp only
  split_ifs <;> dsimp only <;>
    (first
      | rw [storage_get_set_ne _ _ _ _ (fun hx => StoreKey.noConfusion hx),
          storage_get_set_ne _ _ _ _ (fun hx => StoreKey.noConfusion hx),
          storage_get_set_ne _ _ _ _ (fun hx => StoreKey.noConfusion hx)]
      | rw [storage_get_set_ne _ _ _ _ (fun hx => StoreKey.noConfusion hx),
          storage_get_set_ne _ _ _ _ (fun hx => StoreKey.noConfusion hx)]
      | rw [storage_get_set_ne _ _ _ _ (fun hx => StoreKey.noConfusion hx)]
      | rfl)

theorem handleElevator_step_unchanged (frame : PacketFrame)
    (storage : Storage) (u : String) :
    ((handleElevator frame storage).2).get (StoreKey.thermoStep u) =
      storage.get (StoreKey.thermoStep u) := by
  unfold handleElevator
  dsimp only
  split_ifs <;> (try dsimp only) <;>
    (first
      | rw [storage_get_set_ne _ _ _ _ (fun hx => StoreKey.noConfusion hx)]
      | rfl)

/-- No dispatched packet ever changes a `_thermo_step` storage entry. -/
theorem dispatchPacket_step_unchanged (gw : GwState) (packet : List Nat)
    (u : String) :
    ((dispatchPacket gw packet).1).storage.get (StoreKey.thermoStep u) =
      gw.storage.get (StoreKey.thermoStep u) := by
  unfold dispatchPacket
  dsimp only
  by_cases hchk : checksum ((packet.drop 2).take 16) ≠
      (PacketFrame.mk packet).checksum
  · rw [if_pos hchk]
  · rw [if_neg hchk]
    cases hdt : (PacketFrame.mk packet).dev_type <;>
      (try dsimp only) <;> split_ifs <;> (try dsimp only) <;>
      (first
        | rfl
        | exact handleThermostat_step_unchanged _ gw.storage u
        | exact handleVentilation_step_unchanged _ gw.storage u
        | exact handleElevator_step_unchanged _ gw.storage u
        | (rw [foldl_onDeviceState_storage]
           try dsimp only
           try (first
             | rfl
             | exact handleThermostat_step_unchanged _ gw.storage u
             | exact handleVentilation_step_unchanged _ gw.storage u
             | exact handleElevator_step_unchanged _ gw.storage u)))

/-- A syntactically well-formed thermostat status frame (command `0x00`,
target byte `0x2B` = 43, current byte `0x16` = 22) for exercising the
step-learning path. -/
def frameC7 : PacketFrame :=
  ⟨[0xAA, 0x55, 0x30, 0xBC, 0x00, 0x36, 0x00, 0x00, 0x00, 0x00,
    0x11, 0x00, 0x2B, 0x00, 0x16, 0x00, 0x00, 0x00, 0x00, 0x0D, 0x0D]⟩

/-- **C7** (code bug): thermostat step learning can never trigger.  The
guard `float(payload[2]) % 1 == 0.5` compares the fractional part of an
integer byte — always `0` — against `0.5`, so (1) the fractional part of
every decoded target temperature is `0`; (2) no dispatched packet ever
changes a `_thermo_step` storage entry, hence once absent (the whole
session, since nothing else writes it) it stays absent; and (3) whenever
the step entry is absent, the decoded climate state reports
`temp_step = 1.0`, never `0.5`. -/
theorem C7_thermostat_step_learning_dead :
    (∀ frame : PacketFrame, pyMod1 ((frame.payloadByte 2 : ℚ)) = 0) ∧
    (∀ (gw : GwState) (packet : List Nat) (u : String),
      ((dispatchPacket gw packet).1).storage.get (StoreKey.thermoStep u) =
        gw.storage.get (StoreKey.thermoStep u)) ∧
    (∀ (frame : PacketFrame) (storage : Storage),
      frame.command = 0x00 →
      storage.get (StoreKey.thermoStep
        (DeviceKey.mk frame.dev_type frame.dev_room 0 SubType.NONE).unique_id)
          = none →
      ((handleThermostat frame storage).1.head?.map
        fun d => alistGet d.attr "temp_step") = some (some (AttrVal.q 1))) := by
  refine ⟨?_, ?_, ?_⟩
  · intro frame
    exact pyMod1_natCast _
  · intro gw packet u
    exact dispatchPacket_step_unchanged gw packet u
  · intro frame storage hcmd hstep
    unfold handleThermostat
    rw [if_pos hcmd]
    dsimp only
    rw [hstep]
    rfl

/-- Witness for C7: the concrete thermostat frame with an empty storage
reports `temp_step = 1.0`, and dispatching any packet from the fresh
gateway leaves the step entry absent. -/
theorem C7_thermostat_step_learning_dead_witness :
    ((handleThermostat frameC7 []).1.head?.map
      fun d => alistGet d.attr "temp_step") = some (some (AttrVal.q 1)) :=
  C7_thermostat_step_learning_dead.2.2 frameC7 [] rfl rfl

theorem TxQueue.applyOp_len (q : TxQueue) (op : QOp)
    (h : q.items.length ≤ q.maxsize) :
    (q.applyOp op).items.length ≤ q.maxsize ∧
      (q.applyOp op).maxsize = q.maxsize := by
  cases op with
  | submit item =>
    dsimp only [TxQueue.applyOp]
    unfold async_send_action
    by_cases hf : q.full = true
    · rw [if_pos hf]
      exact ⟨h, rfl⟩
    · rw [if_neg hf]
      dsimp only
      refine ⟨?_, rfl⟩
      simp only [List.length_append, List.length_singleton]
      unfold TxQueue.full at hf
      simp only [decide_eq_true_eq, Nat.not_le] at hf
      omega
  | take =>
    dsimp only [TxQueue.applyOp]
    unfold TxQueue.take
    refine ⟨?_, rfl⟩
    dsimp only
    rw [List.length_drop]
    omega

theorem TxQueue.applyOps_len (ops : List QOp) (q : TxQueue)
    (h : q.items.length ≤ q.maxsize) :
    (q.applyOps ops).items.length ≤ (q.applyOps ops).maxsize ∧
      (q.applyOps ops).maxsize = q.maxsize := by
  induction ops generalizing q with
  | nil => exact ⟨h, rfl⟩
  | cons op rest ih =>
    unfold TxQueue.applyOps at ih ⊢
    rw [List.foldl_cons]
    have h1 := TxQueue.applyOp_len q op h
    obtain ⟨ih1, ih2⟩ := ih (q.applyOp op) (by rw [h1.2]; exact h1.1)
    exact ⟨ih1, ih2.trans h1.2⟩

/-- **C8**: the transmit queue is created with `maxsize=50`; any sequence
of submissions and sender-loop takes keeps it at 50 items or fewer, and
`async_send_action` on a full queue returns `False` at once with the
queue unchanged (the `full()` test and the rejection run before any
suspension point, so nothing blocks and nothing is enqueued). -/
theorem C8_queue_backpressure :
    (∀ ops : List QOp,
      (TxQueue.init.applyOps ops).items.length ≤ 50) ∧
    (∀ (q : TxQueue) (item : CmdItem), q.full = true →
      async_send_action q item = (false, q)) := by
  constructor
  · intro ops
    have h := TxQueue.applyOps_len ops TxQueue.init (by simp [TxQueue.init])
    have h50 : (TxQueue.applyOps TxQueue.init ops).maxsize = 50 := h.2
    calc (TxQueue.applyOps TxQueue.init ops).items.length
        ≤ (TxQueue.applyOps TxQueue.init ops).maxsize := h.1
      _ = 50 := h50
  · intro q item h
    unfold async_send_action
    rw [if_pos h]

def itemC8 : CmdItem := ⟨⟨DeviceType.LIGHT, 1, 0, SubType.NONE⟩, "turn_on"⟩

/-- Witness for C8: sixty submissions from the fresh queue leave at most
50 items, and a submission on a full 50-item queue is rejected with the
queue unchanged. -/
theorem C8_queue_backpressure_witness :
    (TxQueue.init.applyOps
      (List.replicate 60 (QOp.submit itemC8))).items.length ≤ 50 ∧
    async_send_action ⟨List.replicate 50 itemC8, 50⟩ itemC8 =
      (false, ⟨List.replicate 50 itemC8, 50⟩) := by
  constructor
  · exact C8_queue_backpressure.1 _
  · exact C8_queue_backpressure.2 ⟨List.replicate 50 itemC8, 50⟩ itemC8 rfl

theorem reconnectStep_fst (dmin dmax st : ℚ) (b : Bool) :
    (reconnectStep dmin dmax st b).1 = if 0 < st then st else dmin := rfl

theorem reconnectStep_snd (dmin dmax st : ℚ) (b : Bool) :
    (reconnectStep dmin dmax st b).2 =
      if b then dmin else min ((if 0 < st then st else dmin) * 2) dmax := by
  cases b <;> rfl

/-- Every delay slept over a run of reconnect attempts stays within
`[delay_min, delay_max]`, as long as `_last_reconn_delay` starts at `0.0`
(its `__post_init__` value) or already inside the band. -/
theorem backoffDelays_bounded (dmin dmax : ℚ) (hmin : 0 < dmin)
    (hle : dmin ≤ dmax) (outcomes : List Bool) :
    ∀ st : ℚ, (st = 0 ∨ (dmin ≤ st ∧ st ≤ dmax)) →
    ∀ d ∈ backoffDelays dmin dmax st outcomes, dmin ≤ d ∧ d ≤ dmax := by
  induction outcomes with
  | nil =>
    intro st _ d hd
    simp [backoffDelays] at hd
  | cons b rest ih =>
    intro st hst d hd
    rw [backoffDelays] at hd
    try dsimp only at hd
    rw [reconnectStep_fst, reconnectStep_snd] at hd
    have hdelay : dmin ≤ (if 0 < st then st else dmin) ∧
        (if 0 < st then st else dmin) ≤ dmax := by
      rcases hst with h0 | ⟨h1, h2⟩
      · rw [h0, if_neg (lt_irrefl 0)]
        exact ⟨le_refl dmin, hle⟩
      · rw [if_pos (lt_of_lt_of_le hmin h1)]
        exact ⟨h1, h2⟩
    rcases List.mem_cons.mp hd with heq | hmem
    · rw [heq]
      exact hdelay
    · refine ih _ ?_ d hmem
      right
      cases b with
      | true =>
        rw [if_pos rfl]
        exact ⟨le_refl dmin, hle⟩
      | false =>
        rw [if_neg (by simp)]
        constructor
        · refine le_min ?_ hle
          nlinarith [hdelay.1, hdelay.2]
        · exact min_le_right _ _

/-- **C9**: reconnection backoff.  With `0 < delay_min ≤ delay_max`:
the very first attempt (state `0.0`) sleeps `delay_min`; the attempt
after any successful one sleeps `delay_min` again (success overwrites
the stored delay with `delay_min`); a failed attempt that slept `d`
stores `min(2d, delay_max)` for the next one; and every delay of every
run starting from the initial state lies within
`[delay_min, delay_max]`. -/
theorem C9_reconnect_backoff (dmin dmax : ℚ) (hmin : 0 < dmin)
    (hle : dmin ≤ dmax) :
    ((reconnectStep dmin dmax 0 true).1 = dmin ∧
     (reconnectStep dmin dmax 0 false).1 = dmin) ∧
    (∀ (st : ℚ) (b : Bool),
      (reconnectStep dmin dmax (reconnectStep dmin dmax st true).2 b).1 =
        dmin) ∧
    (∀ st : ℚ, 0 < st →
      (reconnectStep dmin dmax st false).1 = st ∧
      (reconnectStep dmin dmax st false).2 = min (st * 2) dmax) ∧
    (∀ outcomes : List Bool, ∀ d ∈ backoffDelays dmin dmax 0 outcomes,
      dmin ≤ d ∧ d ≤ dmax) := by
  refine ⟨⟨?_, ?_⟩, ?_, ?_, ?_⟩
  · rw [reconnectStep_fst, if_neg (lt_irrefl 0)]
  · rw [reconnectStep_fst, if_neg (lt_irrefl 0)]
  · intro st b
    rw [reconnectStep_snd, if_pos rfl, reconnectStep_fst, if_pos hmin]
  · intro st h
    constructor
    · rw [reconnectStep_fst, if_pos h]
    · rw [reconnectStep_snd, if_neg (by simp), if_pos h]
  · intro outcomes d hd
    exact backoffDelays_bounded dmin dmax hmin hle outcomes 0 (Or.inl rfl)
      d hd

/-- Witness for C9 with the configured backoff `(1.0, 30.0)` from
transport.py: five straight failures then a success then a failure sleep
`1, 2, 4, 8, 16, 30, 1` seconds, and the delay `16` drawn from the run
lies inside `[1, 30]`. -/
theorem C9_reconnect_backoff_witness :
    backoffDelays 1 30 0 [false, false, false, false, false, true, false] =
      [1, 2, 4, 8, 16, 30, 1] ∧
    ((1 : ℚ) ≤ 16 ∧ (16 : ℚ) ≤ 30) := by
  constructor
  · norm_num [backoffDelays, reconnectStep]
  · exact (C9_reconnect_backoff 1 30 (by norm_num) (by norm_num)).2.2.2
      [false, false, false, false, false] 16
      (by norm_num [backoffDelays, reconnectStep])

/-- Witness for C10: a 3-byte buffer filled to capacity by op sequences;
the overwrite and clamp behavior at concrete inputs. -/
theorem C10_ringbuffer_total_and_bounded_witness :
    ((RingBuffer.init 4096).applyOps
      [BufOp.append [1, 2, 3], BufOp.skip 2, BufOp.clear]).count ≤ 4096 ∧
    ((RingBuffer.mk [1, 2, 3] 3 0 0 3).append1 5).count =
      (RingBuffer.mk [1, 2, 3] 3 0 0 3).count ∧
    ((RingBuffer.mk [1, 2, 3] 3 0 0 3).append1 5).toList =
      (RingBuffer.mk [1, 2, 3] 3 0 0 3).toList.drop 1 ++ [5] ∧
    (RingBuffer.mk [1, 2, 3] 3 0 0 3).peek 7 =
      (RingBuffer.mk [1, 2, 3] 3 0 0 3).peek 3 ∧
    (RingBuffer.mk [1, 2, 3] 3 0 0 3).skip 7 =
      (RingBuffer.mk [1, 2, 3] 3 0 0 3).skip 3 := by
  obtain ⟨h1, h2, h3⟩ := C10_ringbuffer_total_and_bounded
  obtain ⟨h2a, h2b⟩ := h2 (RingBuffer.mk [1, 2, 3] 3 0 0 3) (by decide) (by decide) 5
  obtain ⟨h3a, h3b⟩ := h3 (RingBuffer.mk [1, 2, 3] 3 0 0 3) 7 (by decide)
  exact ⟨h1 [BufOp.append [1, 2, 3], BufOp.skip 2, BufOp.clear], h2a, h2b, h3a, h3b⟩

end Kocom
